import Mathlib

/-!
Verification of the Erebrus dVPN SDK tunnel-lifecycle subsystem
(`src/index.js` of NetSepio/erebrus-npm-sdk).

Strings are modelled as `List Char`.  The regex-based fallback parser of
`connectToWireGuard` (`data.match(/Key\s*=\s*([^\s]+)/)[1]`) is embedded as a
first-match scanner `findMatch`; the configuration text produced by
`createWireGuardConfig` is embedded as `configContent`.

The effectful functions (`connectDvpn`, `connectToWireGuard`,
`disconnectVPN`, `createClient`, key generation, …) are embedded as
state-passing functions over an environment oracle `Env` that decides the
outcome of every external effect (subprocess execution, file I/O, HTTP
calls), threading a state `St` that records the effect trace and a model
of the file system.
-/

/-- JS `\s` whitespace class (the characters relevant to this code base). -/
def isWs (c : Char) : Bool :=
  c == ' ' || c == '\t' || c == '\n' || c == '\r' || c == '\x0b' || c == '\x0c'

/-- Longest non-whitespace prefix: the text matched by `([^\s]+)` at the
current position (empty result means the regex fails here). -/
def takeNonWs : List Char → List Char
  | [] => []
  | c :: cs => if isWs c then [] else c :: takeNonWs cs

/-- Skip the maximal whitespace run: the behaviour of a greedy `\s*` whose
continuation requires a non-whitespace character. -/
def dropWs : List Char → List Char
  | [] => []
  | c :: cs => if isWs c then dropWs cs else c :: cs

/-- Attempt of the JS regex `key\s*=\s*([^\s]+)` anchored at the start of
`s`; returns the capture group on success.  Greedy `\s*` followed by a
mandatory `=` (resp. `[^\s]+`) is equivalent to skipping the maximal
whitespace run, because no backtracking position can satisfy the
continuation. -/
def matchKeyAt (key s : List Char) : Option (List Char) :=
  if key.isPrefixOf s then
    match dropWs (s.drop key.length) with
    | '=' :: rest =>
      match takeNonWs (dropWs rest) with
      | [] => none
      | v => some v
    | _ => none
  else none

/-- `data.match(/key\s*=\s*([^\s]+)/)` : first match over all start
positions, scanning left to right. -/
def findMatch (key : List Char) : List Char → Option (List Char)
  | [] => none
  | c :: cs =>
    match matchKeyAt key (c :: cs) with
    | some v => some v
    | none => findMatch key cs

/-- Single-quote character, kept out of string literals. -/
def sqc : Char := Char.ofNat 39

/-- The five field names extracted by the fallback parser. -/
def pkKey : List Char := "PrivateKey".data

def adKey : List Char := "Address".data

def pubKeyName : List Char := "PublicKey".data

def pskKeyName : List Char := "PresharedKey".data

def epKey : List Char := "Endpoint".data

/-- Config text chunk before the private key value. -/
def chunk0 : List Char := "[Interface]\nPrivateKey = ".data

/-- Config text chunk between private key and address. -/
def chunk1 : List Char := "\nAddress = ".data

/-- Config text chunk between address and server public key (DNS, PostUp,
PostDown, blank line, `[Peer]` header). -/
def chunk2 : List Char :=
  "\nDNS = 1.1.1.1, 8.8.8.8\nPostUp = echo ".data ++ [sqc] ++
  "nameserver 1.1.1.1".data ++ [sqc] ++
  " | resolvconf -a %i -m 0 || true\nPostDown = resolvconf -d %i || true\n\n[Peer]\nPublicKey = ".data

/-- Config text chunk between server public key and preshared key. -/
def chunk3 : List Char := "\nPresharedKey = ".data

/-- Config text chunk between preshared key and endpoint. -/
def chunk4 : List Char := "\nAllowedIPs = 0.0.0.0/0, ::/0\nEndpoint = ".data

/-- Config text chunk after the endpoint: the `:51820` port suffix and the
keepalive line. -/
def chunk5 : List Char := ":51820\nPersistentKeepalive = 25\n".data

/-- The exact configuration text synthesized by `createWireGuardConfig`
from the provisioning payload fields and the locally generated private
key. -/
def configContent (privateKey address serverPublicKey presharedKey endpoint : List Char) :
    List Char :=
  chunk0 ++ privateKey ++ chunk1 ++ address ++ chunk2 ++ serverPublicKey ++
    chunk3 ++ presharedKey ++ chunk4 ++ endpoint ++ chunk5

/-- The low-level `wg setconf` artifact written by the fallback path. -/
def wgConfContent (pk pub psk ep : List Char) : List Char :=
  "private_key=".data ++ pk ++ "\npublic_key=".data ++ pub ++
    "\npreshared_key=".data ++ psk ++ "\nendpoint=".data ++ ep ++
    "\nallowed_ip=0.0.0.0/0\nallowed_ip=::/0\n".data

/-- Command string constants, exactly as in the source. -/
def whichWgCmd : List Char := "which wg".data

def downIfaceCmd : List Char := "sudo wg-quick down erebrus-dvpn".data

def delIfaceCmd : List Char := "sudo ip link delete dev erebrus-dvpn".data

def wgQuickUpCmd (p : List Char) : List Char := "sudo wg-quick up ".data ++ p

def wgQuickDownPathCmd (p : List Char) : List Char := "sudo wg-quick down ".data ++ p

def dnsFixCmd : List Char :=
  "echo \"nameserver 1.1.1.1\" | sudo tee /etc/resolv.conf > /dev/null".data

def pingCmd : List Char := "ping -c 1 8.8.8.8".data

def curlCmd : List Char := "curl -s https://api.ipify.org".data

def linkAddCmd : List Char := "sudo ip link add dev erebrus-dvpn type wireguard".data

def setconfCmd (t : List Char) : List Char := "sudo wg setconf erebrus-dvpn ".data ++ t

def addrAddCmd (a : List Char) : List Char :=
  "sudo ip addr add ".data ++ a ++ " dev erebrus-dvpn".data

def mtuUpCmd : List Char := "sudo ip link set mtu 1420 up dev erebrus-dvpn".data

def routeAddCmd : List Char := "sudo ip route add default dev erebrus-dvpn".data

def genkeyCmd (d : List Char) : List Char := "wg genkey > ".data ++ d ++ "/private.key".data

def pubkeyCmd (d : List Char) : List Char :=
  "cat ".data ++ d ++ "/private.key | wg pubkey > ".data ++ d ++ "/public.key".data

def genpskCmd (f : List Char) : List Char := "wg genpsk > ".data ++ f

def confPath : List Char := "/tmp/erebrus-dvpn.conf".data

def tempConfPath (nowS : List Char) : List Char :=
  "/tmp/wg-temp-".data ++ nowS ++ ".conf".data

def wgKeysDir (nowS : List Char) : List Char := "/tmp/wg-keys-".data ++ nowS

def wgPskPath (nowS : List Char) : List Char := "/tmp/wg-psk-".data ++ nowS

def privKeyFile (d : List Char) : List Char := d ++ "/private.key".data

def pubKeyFile (d : List Char) : List Char := d ++ "/public.key".data

def activeStatus : List Char := "active".data

/-- JS `String.prototype.trim` on our character lists. -/
def trimL (s : List Char) : List Char :=
  ((s.dropWhile isWs).reverse.dropWhile isWs).reverse

/-- Outcome of one external effect, decided by the environment oracle:
a successful result carrying output text, or a failure carrying an error
message. -/
inductive EffRes
  | ok (out : List Char)
  | err (msg : List Char)
deriving DecidableEq

/-- Recorded external effect: subprocess execution, file I/O, and the two
HTTP calls of the connect path. -/
inductive Eff
  | exec (cmd : List Char)
  | readF (path : List Char)
  | writeF (path content : List Char) (mode : Nat)
  | mkdirE (path : List Char)
  | rmE (path : List Char)
  | unlinkE (path : List Char)
  | fetchNodes
  | fetchClient (nodeId pub psk : List Char)
deriving DecidableEq

/-- A node entry returned by the node directory. -/
structure Node where
  id : List Char
  status : List Char
deriving DecidableEq

/-- Outcome of the `getAllNodes` HTTP call: network/JSON failure, a body
whose `payload` field is missing or not an array (the `.length` access then
throws inside the `try`), or a proper node list. -/
inductive NodesRes
  | err
  | payload (nodes : Option (List Node))
deriving DecidableEq

/-- The `client` object of a provisioning response payload:
`client.Address` (an array; `Address[0]` of an empty array is JS
`undefined`) and `client.PresharedKey`. -/
structure ClientRec where
  Address : List (List Char)
  PresharedKey : List Char
deriving DecidableEq

/-- The `payload` object of a provisioning response. -/
structure Payload where
  client : ClientRec
  endpoint : List Char
  serverPublicKey : List Char
deriving DecidableEq

/-- Outcome of the provisioning POST in `createClient`: network failure,
an empty/whitespace body, a body that fails `JSON.parse`, or parsed JSON
whose `payload` field may be absent. -/
inductive ClientRes
  | err
  | emptyBody
  | badJson
  | okJson (p : Option Payload)
deriving DecidableEq

/-- The value returned by a successful `createClient`: the parsed response
plus the locally generated private and preshared keys attached to it. -/
structure ClientData where
  payload : Option Payload
  privateKey : List Char
  presharedKey : List Char
deriving DecidableEq

/-- Environment oracle: result of the n-th counted effect, the successive
`Date.now()` renderings, the process umask, and the structured outcomes of
the two HTTP calls made on the connect path. -/
structure Env where
  eff : Nat → EffRes
  now : Nat → List Char
  umask : Nat
  nodesRes : NodesRes
  clientRes : ClientRes

/-- Interpreter state: effect counter, `Date.now()` counter, the files
this process has written (path, content, mode), and the effect trace. -/
structure St where
  k : Nat
  nowI : Nat
  files : List (List Char × List Char × Nat)
  tr : List Eff
deriving DecidableEq

/-- Initial state. -/
def St0 : St := ⟨0, 0, [], []⟩

/-- Mode bits of a file created with `mode` under `umask`
(POSIX `open(2)`: the requested bits minus the umask bits). -/
def createMode (mode umask : Nat) : Nat :=
  mode &&& (0o7777 ^^^ (umask &&& 0o7777))

/-- File-map lookup. -/
def fsGet : List (List Char × List Char × Nat) → List Char → Option (List Char × Nat)
  | [], _ => none
  | (p, c, m) :: fs, q => if p = q then some (c, m) else fsGet fs q

/-- File-map write: `fs.writeFile` semantics — an existing file keeps its
permission bits (the `mode` option only applies on creation); a fresh file
is created with `createMode mode umask`. -/
def fsWrite (fs : List (List Char × List Char × Nat)) (p c : List Char) (mode umask : Nat) :
    List (List Char × List Char × Nat) :=
  match fsGet fs p with
  | some (_, m) => (p, c, m) :: fs.filter (fun e => !(e.1 = p : Bool))
  | none => (p, c, createMode mode umask) :: fs

/-- File-map removal. -/
def fsRemove (fs : List (List Char × List Char × Nat)) (p : List Char) :
    List (List Char × List Char × Nat) :=
  fs.filter (fun e => !(e.1 = p : Bool))

/-- Consume one oracle slot and record an effect. -/
def bump (env : Env) (s : St) (e : Eff) : EffRes × St :=
  (env.eff s.k, { s with k := s.k + 1, tr := s.tr ++ [e] })

/-- `exec(cmd, callback)`. -/
def doExec (env : Env) (s : St) (cmd : List Char) : EffRes × St :=
  bump env s (.exec cmd)

/-- `fs.writeFile` / `fs.promises.writeFile`: on success the file map is
updated. -/
def doWrite (env : Env) (s : St) (path content : List Char) (mode : Nat) : Bool × St :=
  match bump env s (.writeF path content mode) with
  | (.ok _, s1) => (true, { s1 with files := fsWrite s1.files path content mode env.umask })
  | (.err _, s1) => (false, s1)

/-- Content delivered by a successful read: a file this process wrote
yields its stored content; a file written externally (e.g. by shell
redirection of a key-generation tool) yields the oracle-chosen content. -/
def readVal (s : St) (path o : List Char) : List Char :=
  match fsGet s.files path with
  | some (c, _) => c
  | none => o

/-- `fs.readFile` / `fs.promises.readFile`: the oracle decides success or
failure; on success the content comes from `readVal`. -/
def doRead (env : Env) (s : St) (path : List Char) : Except (List Char) (List Char) × St :=
  match bump env s (.readF path) with
  | (.ok o, s1) => (.ok (readVal s1 path o), s1)
  | (.err m, s1) => (.error m, s1)

/-- `fs.promises.mkdir`. -/
def doMkdir (env : Env) (s : St) (path : List Char) : Bool × St :=
  match bump env s (.mkdirE path) with
  | (.ok _, s1) => (true, s1)
  | (.err _, s1) => (false, s1)

/-- `fs.promises.rm` (recursive, force). -/
def doRm (env : Env) (s : St) (path : List Char) : Bool × St :=
  match bump env s (.rmE path) with
  | (.ok _, s1) => (true, { s1 with files := fsRemove s1.files path })
  | (.err _, s1) => (false, s1)

/-- `fs.unlink` / `fs.promises.unlink`. -/
def doUnlink (env : Env) (s : St) (path : List Char) : Bool × St :=
  match bump env s (.unlinkE path) with
  | (.ok _, s1) => (true, { s1 with files := fsRemove s1.files path })
  | (.err _, s1) => (false, s1)

/-- `Date.now()` rendered as a string. -/
def getNow (env : Env) (s : St) : List Char × St :=
  (env.now s.nowI, { s with nowI := s.nowI + 1 })

/-- Result of a JS async operation as observed by its caller: a resolved
value, a rejected promise, or an uncaught exception thrown from a plain
callback (which settles nothing and crashes the process). -/
inductive JsOut (α : Type)
  | res (a : α)
  | rej (e : List Char)
  | crash
deriving DecidableEq

/-- `checkWireGuard`: `exec('which wg')`; false on error or blank stdout. -/
def checkWireGuard (env : Env) (s : St) : Bool × St :=
  match doExec env s whichWgCmd with
  | (.ok o, s1) => (!(trimL o).isEmpty, s1)
  | (.err _, s1) => (false, s1)

/-- `getAllNodes`: fetch the node directory; on any failure (network,
JSON, missing payload) the `catch` returns `[]`; otherwise the nodes with
`status === 'active'`. -/
def getAllNodes (env : Env) (s : St) : List Node × St :=
  let s1 := { s with tr := s.tr ++ [Eff.fetchNodes] }
  match env.nodesRes with
  | .err => ([], s1)
  | .payload none => ([], s1)
  | .payload (some l) => (l.filter (fun n => n.status = activeStatus), s1)

/-- `generateWireGuardKeyPair`: mkdir a `Date.now()`-named temp dir,
run `wg genkey` and `wg pubkey` via shell redirection, read both key
files back, `trim` them, remove the temp dir, and return the pair.
Every failure is caught and turns into `none`; note that the `rm` cleanup
is only reached on the all-success path. -/
def generateWireGuardKeyPair (env : Env) (s : St) : Option (List Char × List Char) × St :=
  match getNow env s with
  | (nowS, s0) =>
    let tempDir := wgKeysDir nowS
    match doMkdir env s0 tempDir with
    | (false, s1) => (none, s1)
    | (true, s1) =>
      match doExec env s1 (genkeyCmd tempDir) with
      | (.err _, s2) => (none, s2)
      | (.ok _, s2) =>
        match doExec env s2 (pubkeyCmd tempDir) with
        | (.err _, s3) => (none, s3)
        | (.ok _, s3) =>
          match doRead env s3 (privKeyFile tempDir) with
          | (.error _, s4) => (none, s4)
          | (.ok pk, s4) =>
            match doRead env s4 (pubKeyFile tempDir) with
            | (.error _, s5) => (none, s5)
            | (.ok pb, s5) =>
              match doRm env s5 tempDir with
              | (false, s6) => (none, s6)
              | (true, s6) => (some (trimL pk, trimL pb), s6)

/-- `generatePresharedKey`: run `wg genpsk` redirected to a
`Date.now()`-named temp file, read it back, `trim`, unlink, return.
Failures are caught into `none`; the unlink is only reached after a
successful read. -/
def generatePresharedKey (env : Env) (s : St) : Option (List Char) × St :=
  match getNow env s with
  | (nowS, s0) =>
    let tempFile := wgPskPath nowS
    match doExec env s0 (genpskCmd tempFile) with
    | (.err _, s1) => (none, s1)
    | (.ok _, s1) =>
      match doRead env s1 tempFile with
      | (.error _, s2) => (none, s2)
      | (.ok c, s2) =>
        match doUnlink env s2 tempFile with
        | (false, s3) => (none, s3)
        | (true, s3) => (some (trimL c), s3)

/-- `createClient`: generate key pair and preshared key, then POST the
keys to the node's client endpoint and return the parsed response with
the private and preshared keys attached.  The JS aborts (throw caught
into `null`) on `!keyPair` — a null test only, since the returned object
is truthy even with empty-string fields — and on `!presharedKey`, a
falsy test on a string that also catches the empty string left by
trimming whitespace-only output.  Empty bodies, JSON parse errors and
network errors all yield `none`. -/
def createClient (env : Env) (s : St) (nodeId : List Char) : Option ClientData × St :=
  match generateWireGuardKeyPair env s with
  | (none, s1) => (none, s1)
  | (some kp, s1) =>
    match generatePresharedKey env s1 with
    | (none, s2) => (none, s2)
    | (some psk, s2) =>
      if psk.isEmpty then (none, s2)
      else
        let s3 := { s2 with tr := s2.tr ++ [Eff.fetchClient nodeId kp.2 psk] }
        match env.clientRes with
        | .err => (none, s3)
        | .emptyBody => (none, s3)
        | .badJson => (none, s3)
        | .okJson p => (some ⟨p, kp.1, psk⟩, s3)

/-- `client.Address[0]`: JS yields `undefined` for an empty array, which
the template literal renders as the string `undefined`. -/
def headAddr : List (List Char) → List Char
  | [] => "undefined".data
  | a :: _ => a

/-- `createWireGuardConfig`: destructure `clientData.payload` (a missing
payload throws and is caught into `none`), build the config text, and
write it to `/tmp/erebrus-dvpn.conf` with `mode: 0o600`. -/
def createWireGuardConfig (env : Env) (s : St) (cd : ClientData) :
    Option (List Char) × St :=
  match cd.payload with
  | none => (none, s)
  | some p =>
    let content := configContent cd.privateKey (headAddr p.client.Address)
      p.serverPublicKey p.client.PresharedKey p.endpoint
    match doWrite env s confPath content 0o600 with
    | (true, s1) => (some confPath, s1)
    | (false, s1) => (none, s1)

/-- `cleanupWireGuard`: `wg-quick down` the interface then delete it,
ignoring all errors. -/
def cleanupWireGuard (env : Env) (s : St) : St :=
  (doExec env ((doExec env s downIfaceCmd).2) delIfaceCmd).2

/-- The manual fallback command sequence, in source order. -/
def manualCmds (tempConf address : List Char) : List (List Char) :=
  [linkAddCmd, setconfCmd tempConf, addrAddCmd address, mtuUpCmd, routeAddCmd]

/-- `execCommands`: run the manual commands in sequence; on the first
failure delete the interface, unlink the temp artifact and reject; when
all succeed unlink the temp artifact and resolve `true`. -/
def runCmds (env : Env) (tempConf : List Char) : List (List Char) → St → JsOut Bool × St
  | [], s => (.res true, (doUnlink env s tempConf).2)
  | c :: rest, s =>
    match doExec env s c with
    | (.ok _, s1) => runCmds env tempConf rest s1
    | (.err m, s1) =>
      let s2 := (doExec env s1 delIfaceCmd).2
      let s3 := (doUnlink env s2 tempConf).2
      (.rej m, s3)

/-- `connectToWireGuard`: idempotent pre-cleanup, then `wg-quick up`.
On primary success: best-effort DNS fix, then one ping, then resolve
`true` regardless of either outcome.  On primary failure: read the config
file (rejecting on read error), extract the five fields with the regex
parser (a failed match makes `match(...)[1]` throw an uncaught `TypeError`
inside the `fs.readFile` callback: modelled as `crash`), write the
low-level temp config (rejecting on write error), and run the manual
sequence. -/
def connectToWireGuard (env : Env) (s : St) (cPath : List Char) : JsOut Bool × St :=
  let s1 := cleanupWireGuard env s
  match doExec env s1 (wgQuickUpCmd cPath) with
  | (.ok _, s2) =>
    let s3 := (doExec env s2 dnsFixCmd).2
    let s4 := (doExec env s3 pingCmd).2
    (.res true, s4)
  | (.err _, s2) =>
    match doRead env s2 cPath with
    | (.error m, s3) => (.rej m, s3)
    | (.ok data, s3) =>
      match findMatch pkKey data, findMatch adKey data, findMatch pubKeyName data,
          findMatch pskKeyName data, findMatch epKey data with
      | some pk, some ad, some pub, some psk, some ep =>
        match getNow env s3 with
        | (nowS, s4) =>
          let tempConf := tempConfPath nowS
          match doWrite env s4 tempConf (wgConfContent pk pub psk ep) 0o600 with
          | (false, s5) => (.rej "writeErr".data, s5)
          | (true, s5) => runCmds env tempConf (manualCmds tempConf ad) s5
      | _, _, _, _, _ => (.crash, s3)

/-- `connectDvpn`: tool check, node directory retrieval, node validation,
client provisioning, config synthesis, bring-up; the surrounding
`try`/`catch` converts a rejected bring-up into `false`, but an uncaught
callback exception is not catchable.  On bring-up success a fire-and-forget
`curl` checks the new public IP before `true` is returned. -/
def connectDvpn (env : Env) (s : St) (nodeId : List Char) : JsOut Bool × St :=
  match checkWireGuard env s with
  | (false, s1) => (.res false, s1)
  | (true, s1) =>
    match getAllNodes env s1 with
    | ([], s2) => (.res false, s2)
    | (n :: ns, s2) =>
      match (n :: ns).find? (fun m => m.id = nodeId) with
      | none => (.res false, s2)
      | some _ =>
        match createClient env s2 nodeId with
        | (none, s3) => (.res false, s3)
        | (some cd, s3) =>
          match createWireGuardConfig env s3 cd with
          | (none, s4) => (.res false, s4)
          | (some cp, s4) =>
            match connectToWireGuard env s4 cp with
            | (.res _, s5) => (.res true, (doExec env s5 curlCmd).2)
            | (.rej _, s5) => (.res false, s5)
            | (.crash, s5) => (.crash, s5)

/-- `disconnectVPN`: `wg-quick down` the config path, then delete the
interface by name; both outcomes are ignored and the promise always
resolves `true`. -/
def disconnectVPN (env : Env) (s : St) (cPath : List Char) : JsOut Bool × St :=
  let s1 := (doExec env s (wgQuickDownPathCmd cPath)).2
  let s2 := (doExec env s1 delIfaceCmd).2
  (.res true, s2)

/-- All characters of `l` are non-whitespace. -/
def noWs (l : List Char) : Bool := l.all (fun c => !isWs c)

/-- `k` does not occur (as a contiguous substring) in `f`. -/
def noOccur (k : List Char) : List Char → Bool
  | [] => true
  | c :: cs => !(k.isPrefixOf (c :: cs)) && noOccur k cs

/-- A conservative occurrence check for concrete text: no suffix of `c` is
related to `k` by the prefix order in either direction, so no match of `k`
can begin inside `c` whatever text follows it. -/
def chunkSafe (k : List Char) : List Char → Bool
  | [] => true
  | c :: cs => (!(k.isPrefixOf (c :: cs)) && !((c :: cs).isPrefixOf k)) && chunkSafe k cs

/-- No occurrence of `k` begins at a position strictly inside `l` when `l`
is followed by `r`. -/
def NoStart (k l r : List Char) : Prop :=
  ∀ i, i < l.length → ¬ k <+: (l.drop i ++ r)

theorem prefix_append_left {k a b : List Char} (h : k <+: a ++ b)
    (hl : k.length ≤ a.length) : k <+: a := by
  rw [List.prefix_iff_eq_take] at h ⊢
  rwa [List.take_append_of_le_length hl] at h

theorem left_prefix_of_prefix_append {k a b : List Char} (h : k <+: a ++ b)
    (hl : a.length ≤ k.length) : a <+: k := by
  rw [List.prefix_iff_eq_take] at h
  rw [List.prefix_iff_eq_take, h, List.take_take]
  rw [min_eq_left hl, List.take_left]

theorem noStart_of_chunkSafe {k : List Char} :
    ∀ {c : List Char}, chunkSafe k c = true → ∀ r, NoStart k c r := by
  intro c
  induction c with
  | nil => intro _ r i hi; simp at hi
  | cons x cs ih =>
    intro h r i hi
    simp only [chunkSafe, Bool.and_eq_true, Bool.not_eq_true'] at h
    obtain ⟨⟨h1, h2⟩, h3⟩ := h
    match i with
    | 0 =>
      intro hp
      simp only [List.drop_zero] at hp
      rcases le_or_lt k.length (x :: cs).length with hle | hlt
      · have := prefix_append_left hp hle
        rw [← List.isPrefixOf_iff_prefix] at this
        simp [this] at h1
      · have := left_prefix_of_prefix_append hp (le_of_lt hlt)
        rw [← List.isPrefixOf_iff_prefix] at this
        simp [this] at h2
    | i + 1 =>
      have := ih h3 r i (by simpa using Nat.lt_of_succ_lt_succ hi)
      simpa using this

theorem noOccur_spec {k : List Char} (hk : k ≠ []) :
    ∀ {f : List Char}, noOccur k f = true → ∀ i, ¬ k <+: f.drop i := by
  intro f
  induction f with
  | nil =>
    intro _ i hp
    rw [List.drop_nil] at hp
    exact hk (List.prefix_nil.mp hp)
  | cons x cs ih =>
    intro h i
    simp only [noOccur, Bool.and_eq_true, Bool.not_eq_true'] at h
    obtain ⟨h1, h2⟩ := h
    match i with
    | 0 =>
      intro hp
      rw [List.drop_zero, ← List.isPrefixOf_iff_prefix] at hp
      simp [hp] at h1
    | i + 1 => exact ih h2 i

theorem noStart_field {k f : List Char} (hk : k ≠ []) (hkw : noWs k = true)
    (hf : noOccur k f = true) (r : List Char) : NoStart k f ('\n' :: r) := by
  intro i hi hp
  rcases le_or_lt k.length (f.drop i).length with hle | hlt
  · exact noOccur_spec hk hf i (prefix_append_left hp hle)
  · rw [List.prefix_iff_eq_take] at hp
    have hdrop : k.drop (f.drop i).length =
        ('\n' :: r).take (k.length - (f.drop i).length) := by
      conv_lhs => rw [hp]
      rw [List.drop_take, List.drop_left]
    have hpos : 0 < k.length - (f.drop i).length := Nat.sub_pos_of_lt hlt
    have hmem : '\n' ∈ k.drop (f.drop i).length := by
      rw [hdrop]
      match hn : k.length - (f.drop i).length with
      | 0 => omega
      | m + 1 => simp [List.take_succ_cons]
    have : '\n' ∈ k := (List.drop_suffix _ _).sublist.mem hmem
    have := List.all_eq_true.mp hkw _ this
    simp [isWs] at this

theorem matchKeyAt_none {k s : List Char} (h : ¬ k <+: s) : matchKeyAt k s = none := by
  have hb : k.isPrefixOf s = false := by
    rw [← Bool.not_eq_true, List.isPrefixOf_iff_prefix]
    exact h
  simp [matchKeyAt, hb]

theorem findMatch_skip {k : List Char} :
    ∀ {l r : List Char}, NoStart k l r → findMatch k (l ++ r) = findMatch k r := by
  intro l
  induction l with
  | nil => intro r _; rfl
  | cons c cs ih =>
    intro r h
    have h0 : matchKeyAt k (c :: (cs ++ r)) = none := by
      apply matchKeyAt_none
      have := h 0 (by simp)
      simpa using this
    have hrest : NoStart k cs r := by
      intro i hi
      simpa using h (i + 1) (by simpa using Nat.succ_lt_succ hi)
    calc findMatch k ((c :: cs) ++ r) = findMatch k (cs ++ r) := by
          show findMatch k (c :: (cs ++ r)) = findMatch k (cs ++ r)
          simp only [findMatch, List.append_eq, h0]
      _ = findMatch k r := ih hrest

theorem noStart_append {k a b r : List Char} (ha : NoStart k a (b ++ r))
    (hb : NoStart k b r) : NoStart k (a ++ b) r := by
  intro i hi
  rcases lt_or_le i a.length with hlt | hle
  · have : (a ++ b).drop i ++ r = a.drop i ++ (b ++ r) := by
      rw [List.drop_append_eq_append_drop, Nat.sub_eq_zero_of_le (le_of_lt hlt),
        List.drop_zero, List.append_assoc]
    rw [this]
    exact ha i hlt
  · have : (a ++ b).drop i ++ r = b.drop (i - a.length) ++ r := by
      rw [List.drop_append_eq_append_drop, List.drop_eq_nil_of_le hle, List.nil_append]
    rw [this]
    apply hb
    rw [List.length_append] at hi
    omega

theorem isPrefixOf_append_self (k t : List Char) : k.isPrefixOf (k ++ t) = true := by
  rw [List.isPrefixOf_iff_prefix]
  exact List.prefix_append k t

theorem takeNonWs_append {v : List Char} (hv : noWs v = true) {c : Char}
    (hc : isWs c = true) (w : List Char) : takeNonWs (v ++ c :: w) = v := by
  induction v with
  | nil => simp [takeNonWs, hc]
  | cons x xs ih =>
    simp only [noWs, List.all_cons, Bool.and_eq_true, Bool.not_eq_true'] at hv
    have ih2 := ih (by simp only [noWs]; exact hv.2)
    simp [takeNonWs, hv.1, ih2]

theorem dropWs_cons_ws {c : Char} (hc : isWs c = true) (s : List Char) :
    dropWs (c :: s) = dropWs s := by
  simp [dropWs, hc]

theorem dropWs_cons_nonws {c : Char} (hc : isWs c = false) (s : List Char) :
    dropWs (c :: s) = c :: s := by
  simp [dropWs, hc]

/-- The separator text between a field name and its value in the config. -/
def eqSep : List Char := ' ' :: '=' :: ' ' :: []

theorem matchKeyAt_hit {k v w : List Char} (hv : noWs v = true) (hvne : v ≠ []) :
    matchKeyAt k (k ++ eqSep ++ (v ++ '\n' :: w)) = some v := by
  match v, hvne with
  | x :: xs, _ =>
    have hx : isWs x = false := by
      simp only [noWs, List.all_cons, Bool.and_eq_true, Bool.not_eq_true'] at hv
      exact hv.1
    have harr : k ++ eqSep ++ ((x :: xs) ++ '\n' :: w) =
        k ++ (' ' :: '=' :: ' ' :: ((x :: xs) ++ '\n' :: w)) := by
      simp [eqSep]
    rw [harr]
    simp only [matchKeyAt, isPrefixOf_append_self, if_true, List.drop_left]
    rw [dropWs_cons_ws (by decide), dropWs_cons_nonws (by decide)]
    simp only []
    rw [dropWs_cons_ws (by decide), List.cons_append, dropWs_cons_nonws hx]
    rw [show x :: (xs ++ '\n' :: w) = (x :: xs) ++ '\n' :: w from rfl]
    rw [takeNonWs_append hv (by decide)]

theorem findMatch_of_matchKeyAt {k s v : List Char} (hne : s ≠ [])
    (h : matchKeyAt k s = some v) : findMatch k s = some v := by
  match s, hne with
  | c :: cs, _ => simp [findMatch, h]

/-- `findMatch` at a decomposition `skip ++ (key ++ sep ++ value ++ rest)`:
skip the prefix, then hit. -/
theorem findMatch_at {k skip v w : List Char}
    (hs : NoStart k skip (k ++ eqSep ++ (v ++ '\n' :: w)))
    (hv : noWs v = true) (hvne : v ≠ []) :
    findMatch k (skip ++ (k ++ eqSep ++ (v ++ '\n' :: w))) = some v := by
  rw [findMatch_skip hs]
  apply findMatch_of_matchKeyAt
  · simp [eqSep, List.append_eq_nil]
  · exact matchKeyAt_hit hv hvne

/-- Leading `[Interface]` header line of the config. -/
def iHdr : List Char := "[Interface]\n".data

/-- `chunk2` without its trailing `PublicKey = ` label. -/
def c2a : List Char :=
  "\nDNS = 1.1.1.1, 8.8.8.8\nPostUp = echo ".data ++ [sqc] ++
  "nameserver 1.1.1.1".data ++ [sqc] ++
  " | resolvconf -a %i -m 0 || true\nPostDown = resolvconf -d %i || true\n\n[Peer]\n".data

/-- `chunk2` without its leading newline. -/
def c2t : List Char :=
  "DNS = 1.1.1.1, 8.8.8.8\nPostUp = echo ".data ++ [sqc] ++
  "nameserver 1.1.1.1".data ++ [sqc] ++
  " | resolvconf -a %i -m 0 || true\nPostDown = resolvconf -d %i || true\n\n[Peer]\nPublicKey = ".data

/-- `chunk4` without its trailing `Endpoint = ` label. -/
def c4a : List Char := "\nAllowedIPs = 0.0.0.0/0, ::/0\n".data

/-- `chunk4` without its leading newline. -/
def c4t : List Char := "AllowedIPs = 0.0.0.0/0, ::/0\nEndpoint = ".data

/-- Trailing keepalive line. -/
def ka1 : List Char := "PersistentKeepalive = 25\n".data

/-- Port suffix appended to the endpoint host. -/
def p51820 : List Char := ":51820".data

theorem chunk0_split : chunk0 = iHdr ++ (pkKey ++ eqSep) := by decide

theorem chunk1_split : chunk1 = ['\n'] ++ (adKey ++ eqSep) := by decide

theorem chunk2_split : chunk2 = c2a ++ (pubKeyName ++ eqSep) := by decide

theorem chunk2_cons : chunk2 = ['\n'] ++ c2t := by decide

theorem chunk3_split : chunk3 = ['\n'] ++ (pskKeyName ++ eqSep) := by decide

theorem chunk4_split : chunk4 = c4a ++ (epKey ++ eqSep) := by decide

theorem chunk4_cons : chunk4 = ['\n'] ++ c4t := by decide

theorem chunk5_split : chunk5 = p51820 ++ '\n' :: ka1 := by decide

/-- The five field names the fallback parser looks for. -/
def keyNames : List (List Char) := [pkKey, adKey, pubKeyName, pskKeyName, epKey]

/-- Well-formedness of a synthesized field value: non-empty, free of
whitespace, and not containing any of the five parsed field names as a
substring (which could otherwise create a spurious earlier regex match). -/
def wfField (f : List Char) : Prop :=
  f ≠ [] ∧ noWs f = true ∧ ∀ k ∈ keyNames, noOccur k f = true

theorem parse_pk (P A S K E : List Char) (hP : wfField P) :
    findMatch pkKey (configContent P A S K E) = some P := by
  have hconf : configContent P A S K E =
      iHdr ++ ((pkKey ++ eqSep) ++ (P ++ '\n' ::
        ((adKey ++ eqSep) ++ (A ++ (chunk2 ++ (S ++ (chunk3 ++
          (K ++ (chunk4 ++ (E ++ chunk5)))))))))) := by
    simp [configContent, chunk0_split, chunk1_split, List.append_assoc]
  rw [hconf]
  exact findMatch_at (noStart_of_chunkSafe (by decide) _) hP.2.1 hP.1

theorem parse_ad (P A S K E : List Char) (hP : wfField P) (hA : wfField A) :
    findMatch adKey (configContent P A S K E) = some A := by
  have hconf : configContent P A S K E =
      (iHdr ++ ((pkKey ++ eqSep) ++ (P ++ ['\n']))) ++
        ((adKey ++ eqSep) ++ (A ++ '\n' ::
          (c2t ++ (S ++ (chunk3 ++ (K ++ (chunk4 ++ (E ++ chunk5)))))))) := by
    simp [configContent, chunk0_split, chunk1_split, chunk2_cons, List.append_assoc]
  rw [hconf]
  apply findMatch_at _ hA.2.1 hA.1
  apply noStart_append (noStart_of_chunkSafe (by decide) _)
  apply noStart_append (noStart_of_chunkSafe (by decide) _)
  apply noStart_append
    (noStart_field (by decide) (by decide) (hP.2.2 adKey (by decide)) _)
  exact noStart_of_chunkSafe (by decide) _

theorem parse_pub (P A S K E : List Char) (hP : wfField P) (hA : wfField A)
    (hS : wfField S) :
    findMatch pubKeyName (configContent P A S K E) = some S := by
  have hconf : configContent P A S K E =
      (iHdr ++ ((pkKey ++ eqSep) ++ (P ++ (['\n'] ++ ((adKey ++ eqSep) ++ (A ++ c2a)))))) ++
        ((pubKeyName ++ eqSep) ++ (S ++ '\n' ::
          ((pskKeyName ++ eqSep) ++ (K ++ (chunk4 ++ (E ++ chunk5)))))) := by
    simp [configContent, chunk0_split, chunk1_split, chunk2_split, chunk3_split,
      List.append_assoc]
  rw [hconf]
  apply findMatch_at _ hS.2.1 hS.1
  apply noStart_append (noStart_of_chunkSafe (by decide) _)
  apply noStart_append (noStart_of_chunkSafe (by decide) _)
  apply noStart_append
    (noStart_field (by decide) (by decide) (hP.2.2 pubKeyName (by decide)) _)
  apply noStart_append (noStart_of_chunkSafe (by decide) _)
  apply noStart_append (noStart_of_chunkSafe (by decide) _)
  apply noStart_append
    (noStart_field (by decide) (by decide) (hA.2.2 pubKeyName (by decide)) _)
  exact noStart_of_chunkSafe (by decide) _

theorem parse_psk (P A S K E : List Char) (hP : wfField P) (hA : wfField A)
    (hS : wfField S) (hK : wfField K) :
    findMatch pskKeyName (configContent P A S K E) = some K := by
  have hconf : configContent P A S K E =
      (iHdr ++ ((pkKey ++ eqSep) ++ (P ++ (['\n'] ++ ((adKey ++ eqSep) ++
        (A ++ (c2a ++ ((pubKeyName ++ eqSep) ++ (S ++ ['\n'])))))))))  ++
        ((pskKeyName ++ eqSep) ++ (K ++ '\n' ::
          (c4t ++ (E ++ chunk5)))) := by
    simp [configContent, chunk0_split, chunk1_split, chunk2_split, chunk3_split,
      chunk4_cons, List.append_assoc]
  rw [hconf]
  apply findMatch_at _ hK.2.1 hK.1
  apply noStart_append (noStart_of_chunkSafe (by decide) _)
  apply noStart_append (noStart_of_chunkSafe (by decide) _)
  apply noStart_append
    (noStart_field (by decide) (by decide) (hP.2.2 pskKeyName (by decide)) _)
  apply noStart_append (noStart_of_chunkSafe (by decide) _)
  apply noStart_append (noStart_of_chunkSafe (by decide) _)
  apply noStart_append
    (noStart_field (by decide) (by decide) (hA.2.2 pskKeyName (by decide)) _)
  apply noStart_append (noStart_of_chunkSafe (by decide) _)
  apply noStart_append (noStart_of_chunkSafe (by decide) _)
  apply noStart_append
    (noStart_field (by decide) (by decide) (hS.2.2 pskKeyName (by decide)) _)
  exact noStart_of_chunkSafe (by decide) _

theorem parse_ep (P A S K E : List Char) (hP : wfField P) (hA : wfField A)
    (hS : wfField S) (hK : wfField K) (hE : wfField E) :
    findMatch epKey (configContent P A S K E) = some (E ++ p51820) := by
  have hconf : configContent P A S K E =
      (iHdr ++ ((pkKey ++ eqSep) ++ (P ++ (['\n'] ++ ((adKey ++ eqSep) ++
        (A ++ (c2a ++ ((pubKeyName ++ eqSep) ++ (S ++ (['\n'] ++
          ((pskKeyName ++ eqSep) ++ (K ++ c4a)))))))))))) ++
        ((epKey ++ eqSep) ++ ((E ++ p51820) ++ '\n' :: ka1)) := by
    simp [configContent, chunk0_split, chunk1_split, chunk2_split, chunk3_split,
      chunk4_split, chunk5_split, List.append_assoc]
  rw [hconf]
  have hv : noWs (E ++ p51820) = true := by
    have h1 : E.all (fun c => !isWs c) = true := hE.2.1
    simp [noWs, List.all_append, h1]
    decide
  have hvne : E ++ p51820 ≠ [] := by
    simp [List.append_eq_nil, p51820]
  apply findMatch_at _ hv hvne
  apply noStart_append (noStart_of_chunkSafe (by decide) _)
  apply noStart_append (noStart_of_chunkSafe (by decide) _)
  apply noStart_append
    (noStart_field (by decide) (by decide) (hP.2.2 epKey (by decide)) _)
  apply noStart_append (noStart_of_chunkSafe (by decide) _)
  apply noStart_append (noStart_of_chunkSafe (by decide) _)
  apply noStart_append
    (noStart_field (by decide) (by decide) (hA.2.2 epKey (by decide)) _)
  apply noStart_append (noStart_of_chunkSafe (by decide) _)
  apply noStart_append (noStart_of_chunkSafe (by decide) _)
  apply noStart_append
    (noStart_field (by decide) (by decide) (hS.2.2 epKey (by decide)) _)
  apply noStart_append (noStart_of_chunkSafe (by decide) _)
  apply noStart_append (noStart_of_chunkSafe (by decide) _)
  apply noStart_append
    (noStart_field (by decide) (by decide) (hK.2.2 epKey (by decide)) _)
  exact noStart_of_chunkSafe (by decide) _

theorem findMatch_none_append {k : List Char} :
    ∀ {l r : List Char}, findMatch k (l ++ r) = none → findMatch k r = none := by
  intro l
  induction l with
  | nil => intro r h; exact h
  | cons c cs ih =>
    intro r h
    apply ih
    revert h
    show findMatch k (c :: (cs ++ r)) = none → findMatch k (cs ++ r) = none
    intro h
    rw [findMatch] at h
    revert h
    match matchKeyAt k (c :: (cs ++ r)) with
    | some v => intro h; exact absurd h (by simp)
    | none => intro h; simpa using h

theorem takeNonWs_dropWs_ne_nil :
    ∀ {s : List Char}, (∃ c ∈ s, isWs c = false) → takeNonWs (dropWs s) ≠ [] := by
  intro s
  induction s with
  | nil => intro h; simp at h
  | cons c cs ih =>
    intro h
    by_cases hc : isWs c = true
    · rw [dropWs_cons_ws hc]
      apply ih
      obtain ⟨d, hd, hdw⟩ := h
      rcases List.mem_cons.mp hd with rfl | hd2
      · rw [hc] at hdw; exact absurd hdw (by simp)
      · exact ⟨d, hd2, hdw⟩
    · have hcf : isWs c = false := by simpa using hc
      rw [dropWs_cons_nonws hcf]
      simp [takeNonWs, hcf]

theorem matchKeyAt_hit_ex {k t : List Char} (h : ∃ c ∈ t, isWs c = false) :
    ∃ v, matchKeyAt k (k ++ eqSep ++ t) = some v := by
  have harr : k ++ eqSep ++ t = k ++ (' ' :: '=' :: ' ' :: t) := by simp [eqSep]
  rw [harr]
  simp only [matchKeyAt, isPrefixOf_append_self, if_true, List.drop_left]
  rw [dropWs_cons_ws (by decide), dropWs_cons_nonws (by decide)]
  simp only []
  rw [dropWs_cons_ws (by decide)]
  have hne := takeNonWs_dropWs_ne_nil h
  revert hne
  match takeNonWs (dropWs t) with
  | [] => intro hne; exact absurd rfl hne
  | v :: vs => intro _; exact ⟨v :: vs, rfl⟩

/-- On a decomposition `l ++ (key ++ sep ++ t)` where `t` has at least one
non-whitespace character, the parser finds some match (whatever the field
values are). -/
theorem findMatch_ne_none {k l t : List Char} (h : ∃ c ∈ t, isWs c = false) :
    findMatch k (l ++ (k ++ eqSep ++ t)) ≠ none := by
  intro hnone
  obtain ⟨v, hv⟩ := matchKeyAt_hit_ex (k := k) h
  have h2 := findMatch_none_append hnone
  have h3 : findMatch k (k ++ eqSep ++ t) = some v := by
    apply findMatch_of_matchKeyAt _ hv
    simp [eqSep, List.append_eq_nil]
  rw [h2] at h3
  exact absurd h3 (by simp)

/-- The char `5` of the trailing keepalive value, visible after every field
label: used as the non-whitespace witness. -/
theorem five_mem_chunk5 : ('5' : Char) ∈ chunk5 := by decide

theorem parse_always_pk (P A S K E : List Char) :
    findMatch pkKey (configContent P A S K E) ≠ none := by
  have hconf : configContent P A S K E =
      iHdr ++ (pkKey ++ eqSep ++ (P ++ '\n' ::
        ((adKey ++ eqSep) ++ (A ++ (chunk2 ++ (S ++ (chunk3 ++
          (K ++ (chunk4 ++ (E ++ chunk5)))))))))) := by
    simp [configContent, chunk0_split, chunk1_split, List.append_assoc]
  rw [hconf]
  apply findMatch_ne_none
  refine ⟨'5', ?_, by decide⟩
  simp [List.mem_append, List.mem_cons, five_mem_chunk5]

theorem parse_always_ad (P A S K E : List Char) :
    findMatch adKey (configContent P A S K E) ≠ none := by
  have hconf : configContent P A S K E =
      (iHdr ++ ((pkKey ++ eqSep) ++ (P ++ ['\n']))) ++
        (adKey ++ eqSep ++ (A ++ '\n' ::
          (c2t ++ (S ++ (chunk3 ++ (K ++ (chunk4 ++ (E ++ chunk5)))))))) := by
    simp [configContent, chunk0_split, chunk1_split, chunk2_cons, List.append_assoc]
  rw [hconf]
  apply findMatch_ne_none
  refine ⟨'5', ?_, by decide⟩
  simp [List.mem_append, List.mem_cons, five_mem_chunk5]

theorem parse_always_pub (P A S K E : List Char) :
    findMatch pubKeyName (configContent P A S K E) ≠ none := by
  have hconf : configContent P A S K E =
      (iHdr ++ ((pkKey ++ eqSep) ++ (P ++ (['\n'] ++ ((adKey ++ eqSep) ++ (A ++ c2a)))))) ++
        (pubKeyName ++ eqSep ++ (S ++ '\n' ::
          ((pskKeyName ++ eqSep) ++ (K ++ (chunk4 ++ (E ++ chunk5)))))) := by
    simp [configContent, chunk0_split, chunk1_split, chunk2_split, chunk3_split,
      List.append_assoc]
  rw [hconf]
  apply findMatch_ne_none
  refine ⟨'5', ?_, by decide⟩
  simp [List.mem_append, List.mem_cons, five_mem_chunk5]

theorem parse_always_psk (P A S K E : List Char) :
    findMatch pskKeyName (configContent P A S K E) ≠ none := by
  have hconf : configContent P A S K E =
      (iHdr ++ ((pkKey ++ eqSep) ++ (P ++ (['\n'] ++ ((adKey ++ eqSep) ++
        (A ++ (c2a ++ ((pubKeyName ++ eqSep) ++ (S ++ ['\n'])))))))))  ++
        (pskKeyName ++ eqSep ++ (K ++ '\n' :: (c4t ++ (E ++ chunk5)))) := by
    simp [configContent, chunk0_split, chunk1_split, chunk2_split, chunk3_split,
      chunk4_cons, List.append_assoc]
  rw [hconf]
  apply findMatch_ne_none
  refine ⟨'5', ?_, by decide⟩
  simp [List.mem_append, List.mem_cons, five_mem_chunk5]

theorem parse_always_ep (P A S K E : List Char) :
    findMatch epKey (configContent P A S K E) ≠ none := by
  have hconf : configContent P A S K E =
      (iHdr ++ ((pkKey ++ eqSep) ++ (P ++ (['\n'] ++ ((adKey ++ eqSep) ++
        (A ++ (c2a ++ ((pubKeyName ++ eqSep) ++ (S ++ (['\n'] ++
          ((pskKeyName ++ eqSep) ++ (K ++ c4a)))))))))))) ++
        (epKey ++ eqSep ++ ((E ++ p51820) ++ '\n' :: ka1)) := by
    simp [configContent, chunk0_split, chunk1_split, chunk2_split, chunk3_split,
      chunk4_split, chunk5_split, List.append_assoc]
  rw [hconf]
  apply findMatch_ne_none
  refine ⟨'1', ?_, by decide⟩
  have h1 : ('1' : Char) ∈ p51820 := by decide
  simp [List.mem_append, List.mem_cons, h1]

/-- Predicate: the effect is the client-provisioning POST. -/
def isFetchClient : Eff → Bool
  | .fetchClient _ _ _ => true
  | _ => false

/-- Predicate: the effect is a directory creation (the first effect of
`createClient`, via `generateWireGuardKeyPair`). -/
def isMkdirEff : Eff → Bool
  | .mkdirE _ => true
  | _ => false

/-- The active node set delivered by the environment, as filtered by
`getAllNodes`. -/
def activeOf (env : Env) : List Node :=
  match env.nodesRes with
  | .payload (some l) => l.filter (fun n => n.status = activeStatus)
  | _ => []

/-- The new effects appended to the trace by a run starting from `s`. -/
def newTr (s : St) (s2 : St) : List Eff := s2.tr.drop s.tr.length

/-- C4: teardown is idempotent and total in success: for every environment
(hence every host state, including one with no tunnel interface) and any
config path, `disconnectVPN` resolves `true`, and calling it again
immediately afterwards resolves `true` as well; no error reaches the
caller. -/
theorem c4_teardown_idempotent (env : Env) (s : St) (p : List Char) :
    (disconnectVPN env s p).1 = JsOut.res true ∧
      (disconnectVPN env (disconnectVPN env s p).2 p).1 = JsOut.res true :=
  ⟨rfl, rfl⟩

/-- C10: `getAllNodes` never throws and never returns null — every failure
(network error, malformed or missing payload) yields `[]`, every success
yields exactly the nodes with status `active`, and consequently
`connectDvpn` cannot distinguish a directory-retrieval failure from a
genuinely empty active-node set. -/
theorem c10_getAllNodes_total (env : Env) (s : St) :
    ((env.nodesRes = NodesRes.err ∨ env.nodesRes = NodesRes.payload none) →
      (getAllNodes env s).1 = []) ∧
    (∀ l, env.nodesRes = NodesRes.payload (some l) →
      (getAllNodes env s).1 = l.filter (fun n => n.status = activeStatus)) ∧
    (∀ nid, env.nodesRes = NodesRes.err →
      (connectDvpn env s nid).1 =
        (connectDvpn { env with nodesRes := NodesRes.payload (some []) } s nid).1) := by
  refine ⟨?_, ?_, ?_⟩
  · rintro (h | h) <;> simp [getAllNodes, h]
  · intro l h
    simp [getAllNodes, h]
  · intro nid h
    cases h0 : env.eff s.k with
    | ok o =>
      by_cases ht : (trimL o).isEmpty
      · simp [connectDvpn, checkWireGuard, doExec, bump, h0, ht, getAllNodes, h]
      · simp [connectDvpn, checkWireGuard, doExec, bump, h0, ht, getAllNodes, h]
    | err m =>
      simp [connectDvpn, checkWireGuard, doExec, bump, h0]

/-- Example node `{id:"A", status:"active"}`. -/
def nodeA_active : Node := ⟨"A".data, "active".data⟩

/-- Example node `{id:"A", status:"inactive"}`. -/
def nodeA_inactive : Node := ⟨"A".data, "inactive".data⟩

/-- An environment in which every external effect succeeds, node `A` is
active, and provisioning returns a complete payload. -/
def envActive : Env where
  eff := fun _ => EffRes.ok "x".data
  now := fun _ => "111".data
  umask := 0o022
  nodesRes := NodesRes.payload (some [nodeA_active])
  clientRes := ClientRes.okJson (some ⟨⟨["10.0.0.2/32".data], "PSK".data⟩, "host".data, "SPK".data⟩)

/-- Same as `envActive` but node `A` is inactive. -/
def envInactive : Env :=
  { envActive with nodesRes := NodesRes.payload (some [nodeA_inactive]) }

/-- C3: for every active-node set and every `nodeId` that is not the id of
an active node, `connectDvpn` resolves `false` without invoking
`createClient` (no provisioning POST and not even its first effect, the
key-directory creation, appear in the trace); with active `[{id:"A",
status:"active"}]` and nodeId `"A"` the provisioning POST is performed,
while with `[{id:"A", status:"inactive"}]` it fails with no provisioning
effect at all. -/
theorem c3_connect_validates_node :
    (∀ env s nid, (∀ n ∈ activeOf env, n.id ≠ nid) →
      (connectDvpn env s nid).1 = JsOut.res false ∧
        ((newTr s (connectDvpn env s nid).2).all
          (fun e => !(isFetchClient e || isMkdirEff e))) = true) ∧
    ((connectDvpn envActive St0 "A".data).2.tr.any isFetchClient = true) ∧
    ((connectDvpn envInactive St0 "A".data).1 = JsOut.res false ∧
      ((connectDvpn envInactive St0 "A".data).2.tr.all
        (fun e => !(isFetchClient e || isMkdirEff e))) = true) := by
  refine ⟨?_, by decide, by decide⟩
  intro env s nid hvalid
  cases h0 : env.eff s.k with
  | err m =>
    constructor <;>
      simp [connectDvpn, checkWireGuard, doExec, bump, h0, newTr, isFetchClient, isMkdirEff]
  | ok o =>
    by_cases ht : (trimL o).isEmpty
    · constructor <;>
        simp [connectDvpn, checkWireGuard, doExec, bump, h0, ht, newTr,
          isFetchClient, isMkdirEff]
    · cases hn : env.nodesRes with
      | err =>
        constructor <;>
          simp [connectDvpn, checkWireGuard, doExec, bump, h0, ht, getAllNodes, hn,
            newTr, isFetchClient, isMkdirEff]
      | payload op =>
        cases op with
        | none =>
          constructor <;>
            simp [connectDvpn, checkWireGuard, doExec, bump, h0, ht, getAllNodes, hn,
              newTr, isFetchClient, isMkdirEff]
        | some l =>
          have hact : activeOf env = l.filter (fun n => n.status = activeStatus) := by
            simp [activeOf, hn]
          cases hfl : l.filter (fun n => n.status = activeStatus) with
          | nil =>
            constructor <;>
              simp [connectDvpn, checkWireGuard, doExec, bump, h0, ht, getAllNodes, hn,
                hfl, newTr, isFetchClient, isMkdirEff]
          | cons n ns =>
            have hfind : (n :: ns).find? (fun m => m.id = nid) = none := by
              rw [List.find?_eq_none]
              intro x hx
              have hxid := hvalid x (by rw [hact, hfl]; exact hx)
              simp [hxid]
            constructor <;>
              simp [connectDvpn, checkWireGuard, doExec, bump, h0, ht, getAllNodes, hn,
                hfl, hfind, newTr, isFetchClient, isMkdirEff]

/-- Whether an oracle outcome is a success. -/
def EffRes.isOk : EffRes → Bool
  | .ok _ => true
  | .err _ => false

/-- An environment in which the `wg genkey` subprocess (the second counted
effect) fails and everything else succeeds. -/
def envKeyFail : Env where
  eff := fun n => if n = 1 then EffRes.err "boom".data else EffRes.ok "x".data
  now := fun _ => "111".data
  umask := 0o022
  nodesRes := NodesRes.err
  clientRes := ClientRes.err

/-- C7 counterexample: in a run where `wg genkey` fails, key-pair
generation returns failure with a trace consisting exactly of the temp-dir
creation and the failed subprocess — no `rm`/`unlink` of the ephemeral
directory ever happens on this exit path, refuting deletion on every exit
path. -/
theorem c7_counterexample :
    (generateWireGuardKeyPair envKeyFail St0).1 = none ∧
      (generateWireGuardKeyPair envKeyFail St0).2.tr =
        [Eff.mkdirE (wgKeysDir "111".data),
         Eff.exec (genkeyCmd (wgKeysDir "111".data))] := by
  decide

/-- C7 amended: the ephemeral key-generation artifacts are deleted only on
the all-success path (where the `rm`/`unlink` effect is indeed always
recorded); on a subprocess or read failure the function exits without
attempting any deletion, leaving the temp directory/file behind — shown
here for the failing-`genkey` and failing-read paths of both generators via
the exact effect traces. -/
theorem c7_cleanup_only_on_success (env : Env) (s : St) :
    ((env.eff s.k).isOk = true → (env.eff (s.k + 1)).isOk = false →
      (generateWireGuardKeyPair env s).1 = none ∧
        newTr s (generateWireGuardKeyPair env s).2 =
          [Eff.mkdirE (wgKeysDir (env.now s.nowI)),
           Eff.exec (genkeyCmd (wgKeysDir (env.now s.nowI)))]) ∧
    ((env.eff s.k).isOk = true → (env.eff (s.k + 1)).isOk = true →
      (env.eff (s.k + 2)).isOk = true → (env.eff (s.k + 3)).isOk = false →
      (generateWireGuardKeyPair env s).1 = none ∧
        newTr s (generateWireGuardKeyPair env s).2 =
          [Eff.mkdirE (wgKeysDir (env.now s.nowI)),
           Eff.exec (genkeyCmd (wgKeysDir (env.now s.nowI))),
           Eff.exec (pubkeyCmd (wgKeysDir (env.now s.nowI))),
           Eff.readF (privKeyFile (wgKeysDir (env.now s.nowI)))]) ∧
    (∀ kp, (generateWireGuardKeyPair env s).1 = some kp →
      Eff.rmE (wgKeysDir (env.now s.nowI)) ∈ newTr s (generateWireGuardKeyPair env s).2) ∧
    ((env.eff s.k).isOk = false →
      (generatePresharedKey env s).1 = none ∧
        newTr s (generatePresharedKey env s).2 =
          [Eff.exec (genpskCmd (wgPskPath (env.now s.nowI)))]) ∧
    ((env.eff s.k).isOk = true → (env.eff (s.k + 1)).isOk = false →
      (generatePresharedKey env s).1 = none ∧
        newTr s (generatePresharedKey env s).2 =
          [Eff.exec (genpskCmd (wgPskPath (env.now s.nowI))),
           Eff.readF (wgPskPath (env.now s.nowI))]) ∧
    (∀ v, (generatePresharedKey env s).1 = some v →
      Eff.unlinkE (wgPskPath (env.now s.nowI)) ∈ newTr s (generatePresharedKey env s).2) := by
  refine ⟨?_, ?_, ?_, ?_, ?_, ?_⟩
  · intro hm hg
    cases hα : env.eff s.k with
    | err m => rw [hα] at hm; simp [EffRes.isOk] at hm
    | ok o =>
      cases hβ : env.eff (s.k + 1) with
      | ok o2 => rw [hβ] at hg; simp [EffRes.isOk] at hg
      | err m =>
        constructor <;>
          simp [generateWireGuardKeyPair, getNow, doMkdir, doExec, bump, hα, hβ,
            newTr, List.append_assoc, List.drop_left]
  · intro h1 h2 h3 h4
    cases hα : env.eff s.k with
    | err m => rw [hα] at h1; simp [EffRes.isOk] at h1
    | ok o =>
      cases hβ : env.eff (s.k + 1) with
      | err m => rw [hβ] at h2; simp [EffRes.isOk] at h2
      | ok o2 =>
        cases hγ : env.eff (s.k + 2) with
        | err m => rw [hγ] at h3; simp [EffRes.isOk] at h3
        | ok o3 =>
          cases hδ : env.eff (s.k + 3) with
          | ok o4 => rw [hδ] at h4; simp [EffRes.isOk] at h4
          | err m =>
            constructor <;>
              simp [generateWireGuardKeyPair, getNow, doMkdir, doExec, doRead, bump,
                hα, hβ, hγ, hδ, newTr, List.append_assoc, List.drop_left]
  · intro kp
    cases hα : env.eff s.k <;>
      cases hβ : env.eff (s.k + 1) <;>
        cases hγ : env.eff (s.k + 2) <;>
          cases hδ : env.eff (s.k + 3) <;>
            cases hε : env.eff (s.k + 4) <;>
              cases hζ : env.eff (s.k + 5) <;>
                simp [generateWireGuardKeyPair, getNow, doMkdir, doExec, doRead, doRm,
                  bump, hα, hβ, hγ, hδ, hε, hζ, newTr, List.append_assoc, List.drop_left]
  · intro hm
    cases hα : env.eff s.k with
    | ok o => rw [hα] at hm; simp [EffRes.isOk] at hm
    | err m =>
      constructor <;>
        simp [generatePresharedKey, getNow, doExec, bump, hα,
          newTr, List.append_assoc, List.drop_left]
  · intro h1 h2
    cases hα : env.eff s.k with
    | err m => rw [hα] at h1; simp [EffRes.isOk] at h1
    | ok o =>
      cases hβ : env.eff (s.k + 1) with
      | ok o2 => rw [hβ] at h2; simp [EffRes.isOk] at h2
      | err m =>
        constructor <;>
          simp [generatePresharedKey, getNow, doExec, doRead, bump, hα, hβ,
            newTr, List.append_assoc, List.drop_left]
  · intro v
    cases hα : env.eff s.k <;>
      cases hβ : env.eff (s.k + 1) <;>
        cases hγ : env.eff (s.k + 2) <;>
          simp [generatePresharedKey, getNow, doExec, doRead, doUnlink, bump,
            hα, hβ, hγ, newTr, List.append_assoc, List.drop_left]

/-- An environment in which every subprocess succeeds, both key-pair
files read back as whitespace-only text, the preshared-key file reads
back non-empty, and provisioning responds with parsable JSON. -/
def envWsKeys : Env where
  eff := fun n => if n = 7 then EffRes.ok "psk3".data else EffRes.ok " \n".data
  now := fun _ => "7".data
  umask := 0o022
  nodesRes := NodesRes.err
  clientRes := ClientRes.okJson none

/-- C8 counterexample: when the key-pair files read back contain only
whitespace, `generateWireGuardKeyPair` returns empty-string key material
instead of failing; `createClient` proceeds, because the JS `!keyPair`
test sees a truthy object, and the empty public key is passed to the
provisioning POST together with the generated preshared key — refuting
that whitespace-only key-file output never yields usable key material and
that no partial key material reaches provisioning. -/
theorem c8_counterexample :
    (generateWireGuardKeyPair envWsKeys St0).1 = some ([], []) ∧
      (createClient envWsKeys St0 "A".data).1 ≠ none ∧
      Eff.fetchClient "A".data [] "psk3".data ∈
        (createClient envWsKeys St0 "A".data).2.tr := by
  decide

/-- Helper: key-pair generation never performs a provisioning POST. -/
theorem keygen_no_fetch (env : Env) (s : St) :
    ((newTr s (generateWireGuardKeyPair env s).2).all (fun e => !isFetchClient e)) = true := by
  cases hα : env.eff s.k <;>
    cases hβ : env.eff (s.k + 1) <;>
      cases hγ : env.eff (s.k + 2) <;>
        cases hδ : env.eff (s.k + 3) <;>
          cases hε : env.eff (s.k + 4) <;>
            cases hζ : env.eff (s.k + 5) <;>
              simp [generateWireGuardKeyPair, getNow, doMkdir, doExec, doRead, doRm,
                bump, hα, hβ, hγ, hδ, hε, hζ, newTr, isFetchClient,
                List.append_assoc, List.drop_left]

/-- Helper: preshared-key generation never performs a provisioning POST. -/
theorem pskgen_no_fetch (env : Env) (s : St) :
    ((newTr s (generatePresharedKey env s).2).all (fun e => !isFetchClient e)) = true := by
  cases hα : env.eff s.k <;>
    cases hβ : env.eff (s.k + 1) <;>
      cases hγ : env.eff (s.k + 2) <;>
        simp [generatePresharedKey, getNow, doExec, doRead, doUnlink, bump,
          hα, hβ, hγ, newTr, isFetchClient, List.append_assoc, List.drop_left]

/-- Helper: key-pair generation only appends to the trace. -/
theorem keygen_tr_prefix (env : Env) (s : St) :
    s.tr <+: (generateWireGuardKeyPair env s).2.tr := by
  cases hα : env.eff s.k <;>
    cases hβ : env.eff (s.k + 1) <;>
      cases hγ : env.eff (s.k + 2) <;>
        cases hδ : env.eff (s.k + 3) <;>
          cases hε : env.eff (s.k + 4) <;>
            cases hζ : env.eff (s.k + 5) <;>
              simp [generateWireGuardKeyPair, getNow, doMkdir, doExec, doRead, doRm,
                bump, hα, hβ, hγ, hδ, hε, hζ, List.append_assoc, List.prefix_append]

/-- Helper: preshared-key generation only appends to the trace. -/
theorem pskgen_tr_prefix (env : Env) (s : St) :
    s.tr <+: (generatePresharedKey env s).2.tr := by
  cases hα : env.eff s.k <;>
    cases hβ : env.eff (s.k + 1) <;>
      cases hγ : env.eff (s.k + 2) <;>
        simp [generatePresharedKey, getNow, doExec, doRead, doUnlink, bump,
          hα, hβ, hγ, List.append_assoc, List.prefix_append]

/-- New-trace blocks compose along trace-extending runs. -/
theorem newTr_trans {s s1 s2 : St} (h1 : s.tr <+: s1.tr) (h2 : s1.tr <+: s2.tr) :
    newTr s s2 = newTr s s1 ++ newTr s1 s2 := by
  obtain ⟨a, ha⟩ := h1
  obtain ⟨b, hb⟩ := h2
  have hA : newTr s s1 = a := by rw [newTr, ← ha, List.drop_left]
  have hB : newTr s1 s2 = b := by rw [newTr, ← hb, List.drop_left]
  rw [hA, hB, newTr, ← hb, ← ha, List.append_assoc, List.drop_left]

/-- C8 amended: when key-pair generation fails (in particular when the
expected key file is absent so its read errors), `createClient` aborts
with failure and no provisioning POST appears in the trace; a preshared
key that trims to the empty string (whitespace-only output) is likewise
caught by the JS falsy check and aborts with no POST; but the key pair
itself is only checked for null, never for empty fields — whatever
key-pair material generation returns, including the empty strings
obtained from whitespace-only files, is passed on verbatim to the
provisioning POST together with the non-empty preshared key. -/
theorem c8_keygen_failure_aborts (env : Env) (s : St) (nid : List Char) :
    ((generateWireGuardKeyPair env s).1 = none →
      (createClient env s nid).1 = none ∧
        ((newTr s (createClient env s nid).2).all (fun e => !isFetchClient e)) = true) ∧
    (∀ kp, (generateWireGuardKeyPair env s).1 = some kp →
      (generatePresharedKey env (generateWireGuardKeyPair env s).2).1 = some [] →
      (createClient env s nid).1 = none ∧
        ((newTr s (createClient env s nid).2).all (fun e => !isFetchClient e)) = true) ∧
    (∀ kp p, (generateWireGuardKeyPair env s).1 = some kp →
      (generatePresharedKey env (generateWireGuardKeyPair env s).2).1 = some p →
      p ≠ [] →
      Eff.fetchClient nid kp.2 p ∈ (createClient env s nid).2.tr) := by
  refine ⟨?_, ?_, ?_⟩
  · intro hg
    rcases hgen : generateWireGuardKeyPair env s with ⟨r1, s1⟩
    rw [hgen] at hg
    simp only at hg
    subst hg
    have htr := keygen_no_fetch env s
    rw [hgen] at htr
    constructor
    · simp [createClient, hgen]
    · simpa [createClient, hgen] using htr
  · intro kp hkp hpsk
    rcases hgen : generateWireGuardKeyPair env s with ⟨r1, s1⟩
    rw [hgen] at hkp hpsk
    simp only at hkp hpsk
    subst hkp
    rcases hps : generatePresharedKey env s1 with ⟨r2, s2⟩
    rw [hps] at hpsk
    simp only at hpsk
    subst hpsk
    constructor
    · simp [createClient, hgen, hps]
    · have h1 : (newTr s s1).all (fun e => !isFetchClient e) = true := by
        have hx := keygen_no_fetch env s
        rw [hgen] at hx
        exact hx
      have h2 : (newTr s1 s2).all (fun e => !isFetchClient e) = true := by
        have hx := pskgen_no_fetch env s1
        rw [hps] at hx
        exact hx
      have hp1 : s.tr <+: s1.tr := by
        have hx := keygen_tr_prefix env s
        rw [hgen] at hx
        exact hx
      have hp2 : s1.tr <+: s2.tr := by
        have hx := pskgen_tr_prefix env s1
        rw [hps] at hx
        exact hx
      have hcc : (createClient env s nid).2 = s2 := by
        simp [createClient, hgen, hps]
      rw [hcc, newTr_trans hp1 hp2, List.all_append, h1, h2]
      rfl
  · intro kp p hkp hps2 hpne
    rcases hgen : generateWireGuardKeyPair env s with ⟨r1, s1⟩
    rw [hgen] at hkp hps2
    simp only at hkp hps2
    subst hkp
    rcases hps : generatePresharedKey env s1 with ⟨r2, s2⟩
    rw [hps] at hps2
    simp only at hps2
    subst hps2
    have hb : p.isEmpty = false := by
      cases p with
      | nil => exact absurd rfl hpne
      | cons c cs => rfl
    cases hc : env.clientRes <;>
      simp [createClient, hgen, hps, hb, hc]

theorem ne_of_take_ne {x y : List Char} (n : Nat) (h : x.take n ≠ y.take n) : x ≠ y :=
  fun he => h (he ▸ rfl)

/-- A list with concrete prefix `a` differs from any list whose `n`-prefix
differs from `a`'s. -/
theorem concretePrefix_ne {a u y : List Char} (n : Nat) (hn : n ≤ a.length)
    (h : a.take n ≠ y.take n) : a ++ u ≠ y := by
  apply ne_of_take_ne n
  rwa [List.take_append_of_le_length hn]

/-- Two lists with distinct concrete prefixes differ, whatever their tails. -/
theorem concretePrefix_ne₂ {a u b v : List Char} (n : Nat) (hna : n ≤ a.length)
    (hnb : n ≤ b.length) (h : a.take n ≠ b.take n) : a ++ u ≠ b ++ v := by
  apply ne_of_take_ne n
  rwa [List.take_append_of_le_length hna, List.take_append_of_le_length hnb]

theorem upCmd_ne_linkAdd (p : List Char) : wgQuickUpCmd p ≠ linkAddCmd :=
  concretePrefix_ne 6 (by decide) (by decide)

theorem upCmd_ne_mtuUp (p : List Char) : wgQuickUpCmd p ≠ mtuUpCmd :=
  concretePrefix_ne 6 (by decide) (by decide)

theorem upCmd_ne_routeAdd (p : List Char) : wgQuickUpCmd p ≠ routeAddCmd :=
  concretePrefix_ne 6 (by decide) (by decide)

theorem upCmd_ne_dnsFix (p : List Char) : wgQuickUpCmd p ≠ dnsFixCmd :=
  concretePrefix_ne 4 (by decide) (by decide)

theorem upCmd_ne_ping (p : List Char) : wgQuickUpCmd p ≠ pingCmd :=
  concretePrefix_ne 4 (by decide) (by decide)

theorem setconf_ne_linkAdd (t : List Char) : setconfCmd t ≠ linkAddCmd :=
  concretePrefix_ne 8 (by decide) (by decide)

theorem setconf_ne_mtuUp (t : List Char) : setconfCmd t ≠ mtuUpCmd :=
  concretePrefix_ne 8 (by decide) (by decide)

theorem setconf_ne_routeAdd (t : List Char) : setconfCmd t ≠ routeAddCmd :=
  concretePrefix_ne 8 (by decide) (by decide)

theorem setconf_ne_dnsFix (t : List Char) : setconfCmd t ≠ dnsFixCmd :=
  concretePrefix_ne 4 (by decide) (by decide)

theorem setconf_ne_ping (t : List Char) : setconfCmd t ≠ pingCmd :=
  concretePrefix_ne 4 (by decide) (by decide)

theorem setconf_ne_upCmd (t p : List Char) : setconfCmd t ≠ wgQuickUpCmd p :=
  concretePrefix_ne₂ 8 (by decide) (by decide) (by decide)

theorem addrAdd_ne_linkAdd (a : List Char) : addrAddCmd a ≠ linkAddCmd := by
  show "sudo ip addr add ".data ++ (a ++ " dev erebrus-dvpn".data) ≠ linkAddCmd
  exact concretePrefix_ne 9 (by decide) (by decide)

theorem addrAdd_ne_mtuUp (a : List Char) : addrAddCmd a ≠ mtuUpCmd := by
  show "sudo ip addr add ".data ++ (a ++ " dev erebrus-dvpn".data) ≠ mtuUpCmd
  exact concretePrefix_ne 9 (by decide) (by decide)

theorem addrAdd_ne_routeAdd (a : List Char) : addrAddCmd a ≠ routeAddCmd := by
  show "sudo ip addr add ".data ++ (a ++ " dev erebrus-dvpn".data) ≠ routeAddCmd
  exact concretePrefix_ne 9 (by decide) (by decide)

theorem addrAdd_ne_dnsFix (a : List Char) : addrAddCmd a ≠ dnsFixCmd := by
  show "sudo ip addr add ".data ++ (a ++ " dev erebrus-dvpn".data) ≠ dnsFixCmd
  exact concretePrefix_ne 4 (by decide) (by decide)

theorem addrAdd_ne_ping (a : List Char) : addrAddCmd a ≠ pingCmd := by
  show "sudo ip addr add ".data ++ (a ++ " dev erebrus-dvpn".data) ≠ pingCmd
  exact concretePrefix_ne 4 (by decide) (by decide)

theorem addrAdd_ne_upCmd (a p : List Char) : addrAddCmd a ≠ wgQuickUpCmd p := by
  show "sudo ip addr add ".data ++ (a ++ " dev erebrus-dvpn".data) ≠
    "sudo wg-quick up ".data ++ p
  exact concretePrefix_ne₂ 9 (by decide) (by decide) (by decide)

theorem addrAdd_ne_setconf (a t : List Char) : addrAddCmd a ≠ setconfCmd t := by
  show "sudo ip addr add ".data ++ (a ++ " dev erebrus-dvpn".data) ≠
    "sudo wg setconf erebrus-dvpn ".data ++ t
  exact concretePrefix_ne₂ 9 (by decide) (by decide) (by decide)

theorem addrAdd_ne_downIface (a : List Char) : addrAddCmd a ≠ downIfaceCmd := by
  show "sudo ip addr add ".data ++ (a ++ " dev erebrus-dvpn".data) ≠ downIfaceCmd
  exact concretePrefix_ne 9 (by decide) (by decide)

theorem addrAdd_ne_delIface (a : List Char) : addrAddCmd a ≠ delIfaceCmd := by
  show "sudo ip addr add ".data ++ (a ++ " dev erebrus-dvpn".data) ≠ delIfaceCmd
  exact concretePrefix_ne 9 (by decide) (by decide)

/-- An environment in which `wg-quick up` fails, the config file read back
parses, and the whole manual fallback sequence succeeds. -/
def envFb : Env where
  eff := fun n =>
    if n = 2 then EffRes.err "fail".data
    else if n = 3 then
      EffRes.ok (configContent "p".data "a".data "s".data "k".data "e".data)
    else EffRes.ok "".data
  now := fun _ => "9".data
  umask := 0o022
  nodesRes := NodesRes.err
  clientRes := ClientRes.err

/-- C9 counterexample: a bring-up that succeeds via the manual fallback
path performs neither the DNS correction nor the connectivity ping, even
though it reports success — refuting that the probes run on every
successful bring-up path. -/
theorem c9_counterexample :
    (connectToWireGuard envFb St0 confPath).1 = JsOut.res true ∧
      Eff.exec dnsFixCmd ∉ (connectToWireGuard envFb St0 confPath).2.tr ∧
      Eff.exec pingCmd ∉ (connectToWireGuard envFb St0 confPath).2.tr := by
  decide

/-- C9 amended: the DNS correction and single ping probe run only on the
primary-path success, where bring-up resolves `true` whatever their
outcomes (no hypothesis constrains the DNS or ping oracle slots); a
fallback-path success resolves `true` with neither probe ever executed. -/
theorem c9_probes_primary_only (env : Env) (s : St) (cPath : List Char) :
    ((env.eff (s.k + 2)).isOk = true →
      (connectToWireGuard env s cPath).1 = JsOut.res true ∧
        newTr s (connectToWireGuard env s cPath).2 =
          [Eff.exec downIfaceCmd, Eff.exec delIfaceCmd, Eff.exec (wgQuickUpCmd cPath),
           Eff.exec dnsFixCmd, Eff.exec pingCmd]) ∧
    (∀ e2 o3 pk ad pub psk ep,
      env.eff (s.k + 2) = EffRes.err e2 →
      env.eff (s.k + 3) = EffRes.ok o3 →
      findMatch pkKey (readVal s cPath o3) = some pk →
      findMatch adKey (readVal s cPath o3) = some ad →
      findMatch pubKeyName (readVal s cPath o3) = some pub →
      findMatch pskKeyName (readVal s cPath o3) = some psk →
      findMatch epKey (readVal s cPath o3) = some ep →
      (env.eff (s.k + 4)).isOk = true →
      (env.eff (s.k + 5)).isOk = true →
      (env.eff (s.k + 6)).isOk = true →
      (env.eff (s.k + 7)).isOk = true →
      (env.eff (s.k + 8)).isOk = true →
      (env.eff (s.k + 9)).isOk = true →
      (connectToWireGuard env s cPath).1 = JsOut.res true ∧
        newTr s (connectToWireGuard env s cPath).2 =
          [Eff.exec downIfaceCmd, Eff.exec delIfaceCmd, Eff.exec (wgQuickUpCmd cPath),
           Eff.readF cPath,
           Eff.writeF (tempConfPath (env.now s.nowI)) (wgConfContent pk pub psk ep) 0o600,
           Eff.exec linkAddCmd, Eff.exec (setconfCmd (tempConfPath (env.now s.nowI))),
           Eff.exec (addrAddCmd ad), Eff.exec mtuUpCmd, Eff.exec routeAddCmd,
           Eff.unlinkE (tempConfPath (env.now s.nowI))] ∧
        Eff.exec dnsFixCmd ∉ newTr s (connectToWireGuard env s cPath).2 ∧
        Eff.exec pingCmd ∉ newTr s (connectToWireGuard env s cPath).2) := by
  constructor
  · intro h2
    cases hu : env.eff (s.k + 2) with
    | err m => rw [hu] at h2; simp [EffRes.isOk] at h2
    | ok o =>
      constructor <;>
        simp [connectToWireGuard, cleanupWireGuard, doExec, bump, hu, newTr,
          List.append_assoc, List.drop_left]
  · intro e2 o3 pk ad pub psk ep h2 h3 hpk had hpub hpsk hep h4 h5 h6 h7 h8 h9
    simp only [readVal] at hpk had hpub hpsk hep
    cases hw : env.eff (s.k + 4) with
    | err m => rw [hw] at h4; simp [EffRes.isOk] at h4
    | ok o4 =>
    cases hc1 : env.eff (s.k + 5) with
    | err m => rw [hc1] at h5; simp [EffRes.isOk] at h5
    | ok o5 =>
    cases hc2 : env.eff (s.k + 6) with
    | err m => rw [hc2] at h6; simp [EffRes.isOk] at h6
    | ok o6 =>
    cases hc3 : env.eff (s.k + 7) with
    | err m => rw [hc3] at h7; simp [EffRes.isOk] at h7
    | ok o7 =>
    cases hc4 : env.eff (s.k + 8) with
    | err m => rw [hc4] at h8; simp [EffRes.isOk] at h8
    | ok o8 =>
    cases hc5 : env.eff (s.k + 9) with
    | err m => rw [hc5] at h9; simp [EffRes.isOk] at h9
    | ok o9 =>
    have hres : (connectToWireGuard env s cPath).1 = JsOut.res true ∧
        newTr s (connectToWireGuard env s cPath).2 =
          [Eff.exec downIfaceCmd, Eff.exec delIfaceCmd, Eff.exec (wgQuickUpCmd cPath),
           Eff.readF cPath,
           Eff.writeF (tempConfPath (env.now s.nowI)) (wgConfContent pk pub psk ep) 0o600,
           Eff.exec linkAddCmd, Eff.exec (setconfCmd (tempConfPath (env.now s.nowI))),
           Eff.exec (addrAddCmd ad), Eff.exec mtuUpCmd, Eff.exec routeAddCmd,
           Eff.unlinkE (tempConfPath (env.now s.nowI))] := by
      cases hu10 : env.eff (s.k + 10) with
      | ok o10 =>
        constructor <;>
          simp [connectToWireGuard, cleanupWireGuard, doExec, doRead, doWrite,
            doUnlink, bump, getNow, readVal, runCmds, manualCmds, newTr,
            h2, h3, hpk, had, hpub, hpsk, hep, hw, hc1, hc2, hc3, hc4, hc5, hu10,
            List.append_assoc, List.drop_left]
      | err m10 =>
        constructor <;>
          simp [connectToWireGuard, cleanupWireGuard, doExec, doRead, doWrite,
            doUnlink, bump, getNow, readVal, runCmds, manualCmds, newTr,
            h2, h3, hpk, had, hpub, hpsk, hep, hw, hc1, hc2, hc3, hc4, hc5, hu10,
            List.append_assoc, List.drop_left]
    refine ⟨hres.1, hres.2, ?_, ?_⟩
    · rw [hres.2]
      simp [List.mem_cons, (upCmd_ne_dnsFix cPath).symm, (setconf_ne_dnsFix _).symm,
        (addrAdd_ne_dnsFix ad).symm]
      decide
    · rw [hres.2]
      simp [List.mem_cons, (upCmd_ne_ping cPath).symm, (setconf_ne_ping _).symm,
        (addrAdd_ne_ping ad).symm]
      decide

/-- The manual command runner only appends effects: its final trace extends
the starting trace by a block `L` that contains no file read, and in which
the interface-creation command appears at most as often as in the command
list. -/
theorem runCmds_tr (env : Env) (tc : List Char) :
    ∀ cmds s, ∃ L, (runCmds env tc cmds s).2.tr = s.tr ++ L ∧
      List.count (Eff.exec linkAddCmd) L ≤ List.count linkAddCmd cmds ∧
      (∀ p, Eff.readF p ∉ L) := by
  intro cmds
  induction cmds with
  | nil =>
    intro s
    refine ⟨[Eff.unlinkE tc], ?_, by simp, by simp⟩
    cases hu : env.eff s.k <;> simp [runCmds, doUnlink, bump, hu]
  | cons c1 rest ih =>
    intro s
    cases hu : env.eff s.k with
    | ok o =>
      obtain ⟨L, hL, hc, hr⟩ := ih { s with k := s.k + 1, tr := s.tr ++ [Eff.exec c1] }
      refine ⟨Eff.exec c1 :: L, ?_, ?_, ?_⟩
      · rw [show runCmds env tc (c1 :: rest) s =
          runCmds env tc rest { s with k := s.k + 1, tr := s.tr ++ [Eff.exec c1] } by
            simp [runCmds, doExec, bump, hu]]
        rw [hL]
        simp
      · rw [List.count_cons]
        rw [List.count_cons]
        rcases eq_or_ne (Eff.exec linkAddCmd) (Eff.exec c1) with he | he
        · have : linkAddCmd = c1 := by
            have := Eff.exec.inj he
            exact this
          simp [he, this] at hc ⊢
          omega
        · have hec : ¬ (linkAddCmd = c1) := fun hh => he (by rw [hh])
          simp [he, hec]
          omega
      · intro p
        simp only [List.mem_cons]
        rintro (h | h)
        · exact absurd h (by simp)
        · exact hr p h
    | err m =>
      cases hu1 : env.eff (s.k + 1) <;> cases hu2 : env.eff (s.k + 2) <;>
        [skip; skip; skip; skip] <;>
      · refine ⟨[Eff.exec c1, Eff.exec delIfaceCmd, Eff.unlinkE tc], ?_, ?_, by simp⟩
        · simp [runCmds, doExec, doUnlink, bump, hu, hu1, hu2, List.append_assoc]
        · rw [List.count_cons, List.count_cons, List.count_cons, List.count_nil]
          have hdel : ¬ (Eff.exec linkAddCmd = Eff.exec delIfaceCmd) := by decide
          have hun : ¬ (Eff.exec linkAddCmd = Eff.unlinkE tc) := by simp
          have hdc : ¬ (delIfaceCmd = linkAddCmd) := by decide
          rcases eq_or_ne (Eff.exec linkAddCmd) (Eff.exec c1) with he | he
          · have h1 : linkAddCmd = c1 := Eff.exec.inj he
            simp [he, hdel, hun, List.count_cons, h1]
            rw [← h1]
            simp [hdc]
          · have hc1 : ¬ (c1 = linkAddCmd) := fun hh => he (by rw [hh])
            simp [he, hdel, hun, hdc, hc1]

set_option maxHeartbeats 1000000 in
/-- C2: in every bring-up run whose primary path fails, the fallback is
entered exactly once (exactly one config-file read, and the manual
sequence's first command runs at most once — never retried); and whenever
the fallback's second step (`wg setconf`, applying the low-level config)
fails, the remaining steps never run, the interface is deleted, and the
default-route command is never executed: the run's effects are exactly
cleanup, failed `up`, read, temp write, link add, failed setconf,
interface delete, temp unlink, and the promise rejects with that step's
error. -/
theorem c2_fallback_once_and_aborts (env : Env) (s : St) (cPath : List Char) :
    (∀ e2, env.eff (s.k + 2) = EffRes.err e2 →
      List.count (Eff.readF cPath) (newTr s (connectToWireGuard env s cPath).2) = 1 ∧
      List.count (Eff.exec linkAddCmd) (newTr s (connectToWireGuard env s cPath).2) ≤ 1) ∧
    (∀ e2 o3 pk ad pub psk ep m6,
      env.eff (s.k + 2) = EffRes.err e2 →
      env.eff (s.k + 3) = EffRes.ok o3 →
      findMatch pkKey (readVal s cPath o3) = some pk →
      findMatch adKey (readVal s cPath o3) = some ad →
      findMatch pubKeyName (readVal s cPath o3) = some pub →
      findMatch pskKeyName (readVal s cPath o3) = some psk →
      findMatch epKey (readVal s cPath o3) = some ep →
      (env.eff (s.k + 4)).isOk = true →
      (env.eff (s.k + 5)).isOk = true →
      env.eff (s.k + 6) = EffRes.err m6 →
      (connectToWireGuard env s cPath).1 = JsOut.rej m6 ∧
        newTr s (connectToWireGuard env s cPath).2 =
          [Eff.exec downIfaceCmd, Eff.exec delIfaceCmd, Eff.exec (wgQuickUpCmd cPath),
           Eff.readF cPath,
           Eff.writeF (tempConfPath (env.now s.nowI)) (wgConfContent pk pub psk ep) 0o600,
           Eff.exec linkAddCmd, Eff.exec (setconfCmd (tempConfPath (env.now s.nowI))),
           Eff.exec delIfaceCmd, Eff.unlinkE (tempConfPath (env.now s.nowI))] ∧
        List.count (Eff.exec linkAddCmd) (newTr s (connectToWireGuard env s cPath).2) = 1 ∧
        Eff.exec routeAddCmd ∉ newTr s (connectToWireGuard env s cPath).2 ∧
        Eff.exec mtuUpCmd ∉ newTr s (connectToWireGuard env s cPath).2 ∧
        (∀ a, Eff.exec (addrAddCmd a) ∉ newTr s (connectToWireGuard env s cPath).2) ∧
        Eff.exec delIfaceCmd ∈ newTr s (connectToWireGuard env s cPath).2) := by
  have hdn : ¬ (downIfaceCmd = linkAddCmd) := by decide
  have hdl : ¬ (delIfaceCmd = linkAddCmd) := by decide
  have hmt : ¬ (mtuUpCmd = linkAddCmd) := by decide
  have hrt : ¬ (routeAddCmd = linkAddCmd) := by decide
  constructor
  · intro e2 h2
    cases h3 : env.eff (s.k + 3) with
    | err m3 =>
      constructor <;>
        simp [connectToWireGuard, cleanupWireGuard, doExec, doRead, bump, h2, h3,
          newTr, List.append_assoc, List.drop_left, List.count_cons, hdn, hdl,
          upCmd_ne_linkAdd cPath]
    | ok o3 =>
      cases hm1 : findMatch pkKey (readVal s cPath o3) with
      | none =>
        simp only [readVal] at hm1
        constructor <;>
          simp [connectToWireGuard, cleanupWireGuard, doExec, doRead, bump, readVal,
            h2, h3, hm1, newTr, List.append_assoc, List.drop_left, List.count_cons,
            hdn, hdl, upCmd_ne_linkAdd cPath]
      | some pk =>
      cases hm2 : findMatch adKey (readVal s cPath o3) with
      | none =>
        simp only [readVal] at hm1 hm2
        constructor <;>
          simp [connectToWireGuard, cleanupWireGuard, doExec, doRead, bump, readVal,
            h2, h3, hm1, hm2, newTr, List.append_assoc, List.drop_left,
            List.count_cons, hdn, hdl, upCmd_ne_linkAdd cPath]
      | some ad =>
      cases hm3 : findMatch pubKeyName (readVal s cPath o3) with
      | none =>
        simp only [readVal] at hm1 hm2 hm3
        constructor <;>
          simp [connectToWireGuard, cleanupWireGuard, doExec, doRead, bump, readVal,
            h2, h3, hm1, hm2, hm3, newTr, List.append_assoc, List.drop_left,
            List.count_cons, hdn, hdl, upCmd_ne_linkAdd cPath]
      | some pub =>
      cases hm4 : findMatch pskKeyName (readVal s cPath o3) with
      | none =>
        simp only [readVal] at hm1 hm2 hm3 hm4
        constructor <;>
          simp [connectToWireGuard, cleanupWireGuard, doExec, doRead, bump, readVal,
            h2, h3, hm1, hm2, hm3, hm4, newTr, List.append_assoc, List.drop_left,
            List.count_cons, hdn, hdl, upCmd_ne_linkAdd cPath]
      | some psk =>
      cases hm5 : findMatch epKey (readVal s cPath o3) with
      | none =>
        simp only [readVal] at hm1 hm2 hm3 hm4 hm5
        constructor <;>
          simp [connectToWireGuard, cleanupWireGuard, doExec, doRead, bump, readVal,
            h2, h3, hm1, hm2, hm3, hm4, hm5, newTr, List.append_assoc, List.drop_left,
            List.count_cons, hdn, hdl, upCmd_ne_linkAdd cPath]
      | some ep =>
      simp only [readVal] at hm1 hm2 hm3 hm4 hm5
      cases hw : env.eff (s.k + 4) with
      | err m4 =>
        constructor <;>
          simp [connectToWireGuard, cleanupWireGuard, doExec, doRead, doWrite, bump,
            getNow, readVal, h2, h3, hm1, hm2, hm3, hm4, hm5, hw, newTr,
            List.append_assoc, List.drop_left, List.count_cons, hdn, hdl,
            upCmd_ne_linkAdd cPath]
      | ok o4 =>
        have hstep : connectToWireGuard env s cPath =
            runCmds env (tempConfPath (env.now s.nowI))
              (manualCmds (tempConfPath (env.now s.nowI)) ad)
              ⟨s.k + 5, s.nowI + 1,
               fsWrite s.files (tempConfPath (env.now s.nowI))
                 (wgConfContent pk pub psk ep) 0o600 env.umask,
               s.tr ++ [Eff.exec downIfaceCmd, Eff.exec delIfaceCmd,
                 Eff.exec (wgQuickUpCmd cPath), Eff.readF cPath,
                 Eff.writeF (tempConfPath (env.now s.nowI))
                   (wgConfContent pk pub psk ep) 0o600]⟩ := by
          simp [connectToWireGuard, cleanupWireGuard, doExec, doRead, doWrite, bump,
            getNow, readVal, h2, h3, hm1, hm2, hm3, hm4, hm5, hw, List.append_assoc]
        obtain ⟨L, hL, hcnt, hrd⟩ := runCmds_tr env (tempConfPath (env.now s.nowI))
          (manualCmds (tempConfPath (env.now s.nowI)) ad)
          ⟨s.k + 5, s.nowI + 1,
           fsWrite s.files (tempConfPath (env.now s.nowI))
             (wgConfContent pk pub psk ep) 0o600 env.umask,
           s.tr ++ [Eff.exec downIfaceCmd, Eff.exec delIfaceCmd,
             Eff.exec (wgQuickUpCmd cPath), Eff.readF cPath,
             Eff.writeF (tempConfPath (env.now s.nowI))
               (wgConfContent pk pub psk ep) 0o600]⟩
        have hnt : newTr s (connectToWireGuard env s cPath).2 =
            [Eff.exec downIfaceCmd, Eff.exec delIfaceCmd,
             Eff.exec (wgQuickUpCmd cPath), Eff.readF cPath,
             Eff.writeF (tempConfPath (env.now s.nowI))
               (wgConfContent pk pub psk ep) 0o600] ++ L := by
          rw [newTr, hstep, hL]
          simp [List.append_assoc, List.drop_left]
        rw [hnt]
        have hm1c : List.count linkAddCmd
            (manualCmds (tempConfPath (env.now s.nowI)) ad) = 1 := by
          simp [manualCmds, List.count_cons, hmt, hrt,
            setconf_ne_linkAdd (tempConfPath (env.now s.nowI)), addrAdd_ne_linkAdd ad]
        constructor
        · simp [List.count_append, List.count_cons,
            List.count_eq_zero.mpr (hrd cPath)]
        · have h0 : List.count (Eff.exec linkAddCmd)
              [Eff.exec downIfaceCmd, Eff.exec delIfaceCmd,
               Eff.exec (wgQuickUpCmd cPath), Eff.readF cPath,
               Eff.writeF (tempConfPath (env.now s.nowI))
                 (wgConfContent pk pub psk ep) 0o600] = 0 := by
            simp [List.count_cons, hdn, hdl, upCmd_ne_linkAdd cPath]
          rw [List.count_append, h0]
          rw [hm1c] at hcnt
          omega
  · intro e2 o3 pk ad pub psk ep m6 h2 h3 hpk had hpub hpsk hep h4 h5 h6
    simp only [readVal] at hpk had hpub hpsk hep
    cases hw : env.eff (s.k + 4) with
    | err m => rw [hw] at h4; simp [EffRes.isOk] at h4
    | ok o4 =>
    cases hc1 : env.eff (s.k + 5) with
    | err m => rw [hc1] at h5; simp [EffRes.isOk] at h5
    | ok o5 =>
    have hres : (connectToWireGuard env s cPath).1 = JsOut.rej m6 ∧
        newTr s (connectToWireGuard env s cPath).2 =
          [Eff.exec downIfaceCmd, Eff.exec delIfaceCmd, Eff.exec (wgQuickUpCmd cPath),
           Eff.readF cPath,
           Eff.writeF (tempConfPath (env.now s.nowI)) (wgConfContent pk pub psk ep) 0o600,
           Eff.exec linkAddCmd, Eff.exec (setconfCmd (tempConfPath (env.now s.nowI))),
           Eff.exec delIfaceCmd, Eff.unlinkE (tempConfPath (env.now s.nowI))] := by
      cases hu7 : env.eff (s.k + 7) <;>
        cases hu8 : env.eff (s.k + 8) <;>
          constructor <;>
            simp [connectToWireGuard, cleanupWireGuard, doExec, doRead, doWrite,
              doUnlink, bump, getNow, readVal, runCmds, manualCmds,
              h2, h3, hpk, had, hpub, hpsk, hep, hw, hc1, h6, hu7, hu8,
              newTr, List.append_assoc, List.drop_left]
    refine ⟨hres.1, hres.2, ?_, ?_, ?_, ?_, ?_⟩
    · rw [hres.2]
      simp [List.count_cons, hdn, hdl, upCmd_ne_linkAdd cPath,
        setconf_ne_linkAdd (tempConfPath (env.now s.nowI))]
    · rw [hres.2]
      simp [List.mem_cons, (upCmd_ne_routeAdd cPath).symm, (setconf_ne_routeAdd _).symm]
      decide
    · rw [hres.2]
      simp [List.mem_cons, (upCmd_ne_mtuUp cPath).symm, (setconf_ne_mtuUp _).symm]
      decide
    · intro a
      rw [hres.2]
      simp [List.mem_cons, addrAdd_ne_upCmd a cPath, addrAdd_ne_setconf a,
        addrAdd_ne_linkAdd a, addrAdd_ne_downIface a, addrAdd_ne_delIface a]
    · rw [hres.2]
      simp [List.mem_cons]

/-- An environment in which `wg-quick up` fails and the config-file read
also fails. -/
def envRej : Env where
  eff := fun n =>
    if n = 2 then EffRes.err "upfail".data
    else if n = 3 then EffRes.err "readfail".data
    else EffRes.ok "".data
  now := fun _ => "9".data
  umask := 0o022
  nodesRes := NodesRes.err
  clientRes := ClientRes.err

/-- C6 counterexample: `connectToWireGuard` does not always convert
internal failures into a boolean result: when the primary path fails and
the config-file read errors, it rejects, propagating the exception to its
caller (`connectDvpn` is what converts it to `false` one level up). -/
theorem c6_counterexample :
    (connectToWireGuard envRej St0 confPath).1 = JsOut.rej "readfail".data := by
  decide

/-- The manual command runner always resolves or rejects, never crashes. -/
theorem runCmds_no_crash (env : Env) (tc : List Char) :
    ∀ cmds s, (runCmds env tc cmds s).1 ≠ JsOut.crash := by
  intro cmds
  induction cmds with
  | nil => intro s; simp [runCmds]
  | cons c1 rest ih =>
    intro s
    cases hu : env.eff s.k with
    | ok o => simpa [runCmds, doExec, bump, hu] using ih _
    | err m => simp [runCmds, doExec, doUnlink, bump, hu]

/-- Writing a file makes its content retrievable. -/
theorem fsGet_fsWrite (fs : List (List Char × List Char × Nat)) (p c : List Char)
    (m u : Nat) : ∃ mo, fsGet (fsWrite fs p c m u) p = some (c, mo) := by
  cases hh : fsGet fs p with
  | some cm => exact ⟨cm.2, by simp [fsWrite, hh, fsGet]⟩
  | none => exact ⟨createMode m u, by simp [fsWrite, hh, fsGet]⟩

/-- A successful `createWireGuardConfig` wrote the synthesized config text
to the default path, which the file map then serves back. -/
theorem createConfig_some (env : Env) (s : St) (cd : ClientData) (cp : List Char)
    (s4 : St) (h : createWireGuardConfig env s cd = (some cp, s4)) :
    cp = confPath ∧ ∃ mo p, cd.payload = some p ∧
      fsGet s4.files confPath = some (configContent cd.privateKey
        (headAddr p.client.Address) p.serverPublicKey p.client.PresharedKey
        p.endpoint, mo) := by
  cases hp : cd.payload with
  | none => rw [createWireGuardConfig, hp] at h; simp at h
  | some p =>
    rw [createWireGuardConfig, hp] at h
    cases hw : env.eff s.k with
    | err m => simp [doWrite, bump, hw] at h
    | ok o =>
      simp only [doWrite, bump, hw] at h
      obtain ⟨mo, hmo⟩ := fsGet_fsWrite s.files confPath (configContent cd.privateKey
        (headAddr p.client.Address) p.serverPublicKey p.client.PresharedKey
        p.endpoint) 0o600 env.umask
      injection h with h1 h2
      injection h1 with h1
      subst h1
      refine ⟨rfl, mo, p, rfl, ?_⟩
      rw [← h2]
      simpa using hmo

/-- When the config file holds synthesized config text, bring-up never
crashes: the parse always finds all five fields, so the uncaught-throw
branch is unreachable; every outcome is a resolution or rejection. -/
theorem ctwg_no_crash (env : Env) (s : St) (cPath P A S K E : List Char) (mo : Nat)
    (hf : fsGet s.files cPath = some (configContent P A S K E, mo)) :
    (connectToWireGuard env s cPath).1 ≠ JsOut.crash := by
  cases h2 : env.eff (s.k + 2) with
  | ok o => simp [connectToWireGuard, cleanupWireGuard, doExec, bump, h2]
  | err e2 =>
    cases h3 : env.eff (s.k + 3) with
    | err m3 =>
      simp [connectToWireGuard, cleanupWireGuard, doExec, doRead, bump, h2, h3]
    | ok o3 =>
      rcases hx1 : findMatch pkKey (configContent P A S K E) with _ | pk
      · exact absurd hx1 (parse_always_pk P A S K E)
      rcases hx2 : findMatch adKey (configContent P A S K E) with _ | ad
      · exact absurd hx2 (parse_always_ad P A S K E)
      rcases hx3 : findMatch pubKeyName (configContent P A S K E) with _ | pub
      · exact absurd hx3 (parse_always_pub P A S K E)
      rcases hx4 : findMatch pskKeyName (configContent P A S K E) with _ | psk
      · exact absurd hx4 (parse_always_psk P A S K E)
      rcases hx5 : findMatch epKey (configContent P A S K E) with _ | ep
      · exact absurd hx5 (parse_always_ep P A S K E)
      cases hw : env.eff (s.k + 4) with
      | err m4 =>
        simp [connectToWireGuard, cleanupWireGuard, doExec, doRead, doWrite, bump,
          getNow, readVal, hf, h2, h3, hx1, hx2, hx3, hx4, hx5, hw]
      | ok o4 =>
        simp [connectToWireGuard, cleanupWireGuard, doExec, doRead, doWrite, bump,
          getNow, readVal, hf, h2, h3, hx1, hx2, hx3, hx4, hx5, hw]
        apply runCmds_no_crash

/-- C6 amended: `connectToWireGuard` can reject (its fallback failures
surface as promise rejections, caught one level up), but the documented
boolean boundary holds at `connectDvpn`: for every environment it resolves
with a boolean — in particular the uncaught-exception branch of the config
parse is unreachable, because the config file read back on the fallback
path always holds freshly synthesized text in which all five fields
match. -/
theorem c6_connectDvpn_no_throw (env : Env) (s : St) (nid : List Char) :
    ∃ b, (connectDvpn env s nid).1 = JsOut.res b := by
  rcases h1 : checkWireGuard env s with ⟨b1, s1⟩
  cases b1 with
  | false => exact ⟨false, by simp [connectDvpn, h1]⟩
  | true =>
  rcases h2 : getAllNodes env s1 with ⟨ns, s2⟩
  cases ns with
  | nil => exact ⟨false, by simp [connectDvpn, h1, h2]⟩
  | cons n ns2 =>
  cases h3 : (n :: ns2).find? (fun m => m.id = nid) with
  | none => exact ⟨false, by simp [connectDvpn, h1, h2, h3]⟩
  | some sel =>
  rcases h4 : createClient env s2 nid with ⟨cdo, s3⟩
  cases cdo with
  | none => exact ⟨false, by simp [connectDvpn, h1, h2, h3, h4]⟩
  | some cd =>
  rcases h5 : createWireGuardConfig env s3 cd with ⟨cpo, s4⟩
  cases cpo with
  | none => exact ⟨false, by simp [connectDvpn, h1, h2, h3, h4, h5]⟩
  | some cp =>
  obtain ⟨hcp, mo, p, hpay, hget⟩ := createConfig_some env s3 cd cp s4 h5
  subst hcp
  rcases h6 : connectToWireGuard env s4 confPath with ⟨r6, s5⟩
  cases r6 with
  | res b => exact ⟨true, by simp [connectDvpn, h1, h2, h3, h4, h5, h6]⟩
  | rej e => exact ⟨false, by simp [connectDvpn, h1, h2, h3, h4, h5, h6]⟩
  | crash =>
    have hnc := ctwg_no_crash env s4 confPath _ _ _ _ _ mo hget
    rw [h6] at hnc
    simp at hnc

/-- A freshly created file's mode has no bits outside owner-read/write:
the umask can only clear bits of the requested `0o600`. -/
theorem createMode_owner_only (u : Nat) : createMode 0o600 u &&& 0o7177 = 0 := by
  apply Nat.eq_of_testBit_eq
  intro i
  have h : (0o600 : Nat) &&& 0o7177 = 0 := by decide
  have hbit := congrArg (fun n => Nat.testBit n i) h
  simp only [Nat.testBit_land, Nat.zero_testBit] at hbit
  simp only [createMode, Nat.testBit_land, Nat.zero_testBit]
  cases h38 : Nat.testBit 0o600 i with
  | false => simp
  | true =>
    cases h37 : Nat.testBit 0o7177 i with
    | false => simp
    | true => rw [h38, h37] at hbit; simp at hbit

/-- When the umask does not mask the owner read/write bits, the created
mode is exactly `0o600`. -/
theorem createMode_full (u : Nat) (h : u &&& 0o600 = 0) : createMode 0o600 u = 0o600 := by
  have hu : ∀ j, Nat.testBit 0o600 j = true → Nat.testBit u j = false := by
    intro j hj
    have hbit := congrArg (fun n => Nat.testBit n j) h
    simp only [Nat.testBit_land, Nat.zero_testBit] at hbit
    cases hju : Nat.testBit u j with
    | false => rfl
    | true => rw [hju, hj] at hbit; simp at hbit
  apply Nat.eq_of_testBit_eq
  intro i
  simp only [createMode, Nat.testBit_land, Nat.testBit_xor]
  cases h38 : Nat.testBit 0o600 i with
  | false => simp
  | true =>
    have h77 : Nat.testBit 0o7777 i = true := by
      rcases lt_or_le i 9 with hlt | hge
      · interval_cases i <;> revert h38 <;> decide
      · exfalso
        have hz : Nat.testBit 0o600 i = false := Nat.testBit_lt_two_pow (by
          calc (0o600 : Nat) < 2 ^ 9 := by decide
            _ ≤ 2 ^ i := Nat.pow_le_pow_right (by decide) hge)
        rw [hz] at h38
        exact absurd h38 (by simp)
    simp [hu i h38, h77]

/-- Concrete client data with a complete provisioning payload. -/
def cdX : ClientData :=
  ⟨some ⟨⟨["10.0.0.2/32".data], "PSK".data⟩, "host".data, "SPK".data⟩,
   "PK".data, "P2".data⟩

/-- An all-success environment whose process umask is `0o200`
(masking the owner-write bit). -/
def envUmask : Env where
  eff := fun _ => EffRes.ok "x".data
  now := fun _ => "111".data
  umask := 0o200
  nodesRes := NodesRes.err
  clientRes := ClientRes.err

set_option maxRecDepth 10000 in
/-- C5 counterexample: under umask `0o200` a successful config persistence
creates the file with mode `0o400`, not `0o600` — the permission bits are
not `0600` regardless of prior umask, because `writeFile`'s `mode` option
is subject to the process umask. -/
theorem c5_counterexample :
    (createWireGuardConfig envUmask St0 cdX).1 = some confPath ∧
      fsGet (createWireGuardConfig envUmask St0 cdX).2.files confPath =
        some (configContent "PK".data "10.0.0.2/32".data "SPK".data "PSK".data
          "host".data, 0o400) ∧
      (0o400 : Nat) ≠ 0o600 := by
  refine ⟨by decide, by decide, by decide⟩

/-- C5 amended: a successful config persistence to a not-yet-existing path
creates the file with mode `0o600 & ~umask`: never any group/world or
special bits, and exactly `0o600` whenever the umask does not mask the
owner read/write bits.  (A pre-existing file would instead keep its prior
mode, since `writeFile`'s `mode` only applies at creation.) -/
theorem c5_config_owner_only (env : Env) (s : St) (cd : ClientData) (p : Payload)
    (hp : cd.payload = some p) (hnew : fsGet s.files confPath = none)
    (o : List Char) (hw : env.eff s.k = EffRes.ok o) :
    (createWireGuardConfig env s cd).1 = some confPath ∧
      fsGet (createWireGuardConfig env s cd).2.files confPath =
        some (configContent cd.privateKey (headAddr p.client.Address)
          p.serverPublicKey p.client.PresharedKey p.endpoint,
          createMode 0o600 env.umask) ∧
      createMode 0o600 env.umask &&& 0o7177 = 0 ∧
      (env.umask &&& 0o600 = 0 → createMode 0o600 env.umask = 0o600) := by
  refine ⟨?_, ?_, createMode_owner_only env.umask, createMode_full env.umask⟩
  · simp [createWireGuardConfig, hp, doWrite, bump, hw]
  · simp [createWireGuardConfig, hp, doWrite, bump, hw, fsWrite, hnew, fsGet]

/-- C1 counterexample: with provisioning fields `p a s k e`, the manual
parser recovers `e:51820` as the endpoint, not the endpoint host `e` that
was used to synthesize the config — the round-trip does not hold verbatim
for the endpoint. -/
theorem c1_counterexample :
    findMatch epKey
        (configContent "p".data "a".data "s".data "k".data "e".data) ≠
      some "e".data ∧
    findMatch epKey
        (configContent "p".data "a".data "s".data "k".data "e".data) =
      some "e:51820".data := by
  refine ⟨by decide, by decide⟩

/-- C1 amended: for well-formed field values (non-empty, whitespace-free,
not containing any of the five parsed field names), parsing the
synthesized config recovers the private key, address, peer public key and
preshared key exactly, and the endpoint with the synthesized `:51820` port
suffix appended. -/
theorem c1_roundtrip (P A S K E : List Char) (hP : wfField P) (hA : wfField A)
    (hS : wfField S) (hK : wfField K) (hE : wfField E) :
    findMatch pkKey (configContent P A S K E) = some P ∧
    findMatch adKey (configContent P A S K E) = some A ∧
    findMatch pubKeyName (configContent P A S K E) = some S ∧
    findMatch pskKeyName (configContent P A S K E) = some K ∧
    findMatch epKey (configContent P A S K E) = some (E ++ p51820) :=
  ⟨parse_pk P A S K E hP, parse_ad P A S K E hP hA, parse_pub P A S K E hP hA hS,
   parse_psk P A S K E hP hA hS hK, parse_ep P A S K E hP hA hS hK hE⟩

instance (f : List Char) : Decidable (wfField f) := by
  unfold wfField
  infer_instance

/-- Witness for C1: the round-trip theorem applied at concrete well-formed
field values. -/
theorem c1_roundtrip_witness :
    findMatch pkKey (configContent "pk1".data "10.0.0.2/32".data "spk".data
      "psk".data "host".data) = some "pk1".data :=
  (c1_roundtrip "pk1".data "10.0.0.2/32".data "spk".data "psk".data "host".data
    (by decide) (by decide) (by decide) (by decide) (by decide)).1

/-- An environment for the C2 witness: `wg-quick up` fails, the config
read returns synthesized text, and the `wg setconf` step fails. -/
def envC2 : Env where
  eff := fun n =>
    if n = 2 then EffRes.err "upf".data
    else if n = 3 then
      EffRes.ok (configContent "p".data "a".data "s".data "k".data "e".data)
    else if n = 6 then EffRes.err "scfail".data
    else EffRes.ok "".data
  now := fun _ => "9".data
  umask := 0o022
  nodesRes := NodesRes.err
  clientRes := ClientRes.err

set_option maxRecDepth 10000 in
/-- Witness for C2: the step-two-fails theorem applied at a concrete
environment. -/
theorem c2_witness :
    (connectToWireGuard envC2 St0 confPath).1 = JsOut.rej "scfail".data :=
  ((c2_fallback_once_and_aborts envC2 St0 confPath).2 "upf".data
    (configContent "p".data "a".data "s".data "k".data "e".data)
    "p".data "a".data "s".data "k".data ("e".data ++ p51820) "scfail".data
    (by decide) (by decide) (by decide) (by decide) (by decide) (by decide)
    (by decide) (by decide) (by decide) (by decide)).1

/-- Witness for C3: targeting a nodeId outside the active set fails. -/
theorem c3_witness : (connectDvpn envInactive St0 "B".data).1 = JsOut.res false :=
  (c3_connect_validates_node.1 envInactive St0 "B".data (by decide)).1

/-- Witness for C5: the owner-only-mode theorem applied at a concrete
environment and payload. -/
theorem c5_witness : (createWireGuardConfig envActive St0 cdX).1 = some confPath :=
  (c5_config_owner_only envActive St0 cdX
    ⟨⟨["10.0.0.2/32".data], "PSK".data⟩, "host".data, "SPK".data⟩
    (by decide) (by decide) "x".data (by decide)).1

/-- Witness for C7: the cleanup theorem applied at the failing-`genkey`
environment. -/
theorem c7_witness : (generateWireGuardKeyPair envKeyFail St0).1 = none :=
  ((c7_cleanup_only_on_success envKeyFail St0).1 (by decide) (by decide)).1

/-- Witness for C8: key-generation failure aborts `createClient`. -/
theorem c8_witness : (createClient envKeyFail St0 "A".data).1 = none :=
  ((c8_keygen_failure_aborts envKeyFail St0 "A".data).1 (by decide)).1

/-- Witness for C9: primary-path success resolves `true`. -/
theorem c9_witness : (connectToWireGuard envActive St0 confPath).1 = JsOut.res true :=
  ((c9_probes_primary_only envActive St0 confPath).1 (by decide)).1

/-- Witness for C10: a successful directory response yields exactly the
active-filtered nodes. -/
theorem c10_witness :
    (getAllNodes envActive St0).1 =
      [nodeA_active].filter (fun n => n.status = activeStatus) :=
  (c10_getAllNodes_total envActive St0).2.1 [nodeA_active] (by decide)
